import Mathlib

/-! Shallow embedding of the V2V simulator core
    (src/src/SimulationEngine: message.py, protocol.py, network_simulator.py,
    vehicle.py, simulation_engine.py) and proofs about it.

    Conventions used throughout:
    * Python floats are modelled as real numbers.
    * `time.time()` (the wall clock) is modelled as a stream `wall : ℕ → ℝ` of
      successive readings together with a cursor `k : ℕ`; every call of
      `time.time()` in the source consumes one reading and advances the cursor.
    * The loss sampler `random.randint(1, 100) / 100 <= CONFIG.PACKET_LOSS`
      (network_simulator.py line 30) is modelled as a stream `drop : ℕ → Bool`
      of successive outcomes with its own cursor `d : ℕ`.
    * `get_message_hash` (SHA-256 of the canonical JSON serialization,
      protocol.py lines 180-182) is modelled as an injective function of the
      message fields, represented by the serialized content itself, i.e. by
      the message value.
    * Python `dict`s are modelled as insertion-ordered association lists.
-/

namespace V2V

/-- Constants from config.py (class CONFIG). -/
def CONFIG_COMMUNICATION_RANGE : ℝ := 300

/-- CONFIG.BSM_INTERVAL = 0.1 s. -/
noncomputable def CONFIG_BSM_INTERVAL : ℝ := 1 / 10

/-- CONFIG.RETRANSMIT = 0.0005 s. -/
noncomputable def CONFIG_RETRANSMIT : ℝ := 1 / 2000

/-- CONFIG.CONNECTION_TIME = 0.5 s. -/
noncomputable def CONFIG_CONNECTION_TIME : ℝ := 1 / 2

/-- CONFIG.COLLISION_TIME_THRESHOLD = 3.0 s. -/
def CONFIG_COLLISION_TIME_THRESHOLD : ℝ := 3

/-- CONFIG.MAX_DECELERATION = 8.0 m/s². -/
def CONFIG_MAX_DECELERATION : ℝ := 8

/-- CONFIG.MAX_ACCELERATION = 3.0 m/s². -/
def CONFIG_MAX_ACCELERATION : ℝ := 3

/-- CONFIG.VEHICLE_LENGTH = 4.5 m. -/
noncomputable def CONFIG_VEHICLE_LENGTH : ℝ := 9 / 2

/-- CONFIG.VEHICLE_WIDTH = 2.0 m. -/
def CONFIG_VEHICLE_WIDTH : ℝ := 2

/-- CONFIG.SIMULATION_TIMESTEP = 0.01 s. -/
noncomputable def CONFIG_SIMULATION_TIMESTEP : ℝ := 1 / 100

/-- The variant payload of a V2V message (message.py):
    `BasicSafetyMessage`, `CollisionWarningMessage`, `AcknowledgementMessage`.
    The variant tag plays the role of `message_type`; `priority` is derived
    from it exactly as the `__post_init__` methods do. -/
inductive MsgBody where
  | bsm (position_x position_y velocity heading acceleration length width : ℝ)
  | cwm (sequence_number : ℤ) (warning_type : String)
        (target_vehicle_id : String) (time_to_collision : ℂ)
  | ack (sequence_number : ℤ) (target_vehicle_id : String)

/-- Common header of all message variants (message.py, class V2VMessage):
    sender id and timestamp, plus the variant payload. -/
structure V2VMessage where
  vehicle_id : String
  timestamp : ℝ
  body : MsgBody

instance : Inhabited V2VMessage := ⟨⟨"", 0, .ack 0 ""⟩⟩

/-- `Priority.value` of a message: CWMs are EMERGENCY = 0, BSMs and ACKs are
    NORMAL = 1 (message.py, `Priority` enum and the `__post_init__` methods). -/
def V2VMessage.priorityValue (m : V2VMessage) : ℕ :=
  match m.body with
  | .cwm _ _ _ _ => 0
  | _ => 1

/-- The `target_vehicle_id` attribute when the variant has one
    (`hasattr(message, 'target_vehicle_id')` in protocol.py line 79). -/
def V2VMessage.target (m : V2VMessage) : Option String :=
  match m.body with
  | .bsm _ _ _ _ _ _ _ => none
  | .cwm _ _ t _ => some t
  | .ack _ t => some t

/-- The sequence number of a CWM or ACK (`sequence_number` field). -/
def V2VMessage.seqNum (m : V2VMessage) : ℤ :=
  match m.body with
  | .bsm _ _ _ _ _ _ _ => 0
  | .cwm n _ _ _ => n
  | .ack n _ => n

/-- `get_message_hash` (protocol.py lines 180-182): SHA-256 over the canonical
    JSON serialization of all message fields.  Modelled as an injective
    function of the fields; the digest value is represented by the serialized
    content itself, i.e. by the message value. -/
def getMessageHash (m : V2VMessage) : V2VMessage := m

/-- `V2VMessage.__lt__` (message.py lines 25-28): compare priority values,
    then timestamps.  This is the order used by the inbound `PriorityQueue`. -/
def msgLt (a b : V2VMessage) : Prop :=
  a.priorityValue < b.priorityValue ∨
    (a.priorityValue = b.priorityValue ∧ a.timestamp < b.timestamp)

/-- `CWMConnection` (protocol.py lines 11-31).  `cwms` is the deque of CWMs
    awaiting acknowledgement, head first. -/
structure CWMConnection where
  cwms : List V2VMessage
  transmit_time : ℝ
  last_use : ℝ
  send_seq_num : ℤ
  recv_seq_num : ℤ

/-- `CWMConnection.__init__(send_seq_num, recv_seq_num)`: empty deque,
    `transmit_time = 0.0`, `last_use = 0.0`. -/
def mkCWMConnection (send_seq_num recv_seq_num : ℤ) : CWMConnection :=
  ⟨[], 0, 0, send_seq_num, recv_seq_num⟩

/-- `Protocol` state (protocol.py lines 34-40): the per-peer connection table
    (a Python dict, modelled as an insertion-ordered association list) and the
    inbound priority queue (modelled by its contents in arrival order; the
    minimum w.r.t. `msgLt` is extracted). -/
structure Protocol where
  outgoing_cwms : List (String × CWMConnection)
  incoming_messages : List V2VMessage

/-- The empty protocol state (`Protocol.__init__`). -/
def mkProtocol : Protocol := ⟨[], []⟩

/-- Dict lookup: first entry with the given key. -/
def lookupConn : List (String × CWMConnection) → String → Option CWMConnection
  | [], _ => none
  | (k, c) :: rest, key => if k = key then some c else lookupConn rest key

/-- Dict assignment `d[key] = conn`: replace in place if present, else append
    (Python dicts preserve insertion order). -/
def setConn : List (String × CWMConnection) → String → CWMConnection →
    List (String × CWMConnection)
  | [], key, conn => [(key, conn)]
  | (k, c) :: rest, key, conn =>
      if k = key then (key, conn) :: rest else (k, c) :: setConn rest key conn

/-- `Protocol.get_seq_num` (protocol.py lines 42-47): `send_seq_num` of the
    connection to the target vehicle, or 0 when there is none. -/
def Protocol.getSeqNum (p : Protocol) (target_vehicle_id : String) : ℤ :=
  match lookupConn p.outgoing_cwms target_vehicle_id with
  | none => 0
  | some c => c.send_seq_num

/-- `NetworkSimulator` state (network_simulator.py lines 8-13).
    `all_messages` is the pending dict keyed by digest; each entry also keeps
    the sending vehicle (modelled by its id) and the message. -/
structure NetworkSimulator where
  all_messages : List (V2VMessage × String × V2VMessage)
  lost_packets : ℕ
  total_packets : ℕ
  total_latency : ℝ

/-- The empty medium (`NetworkSimulator.__init__`). -/
def mkNetworkSimulator : NetworkSimulator := ⟨[], 0, 0, 0⟩

/-- `NetworkSimulator.get_average_latency` (network_simulator.py lines 15-18):
    0.0 when no packet was ever broadcast, otherwise the mean latency. -/
noncomputable def NetworkSimulator.getAverageLatency (ns : NetworkSimulator) : ℝ :=
  if ns.total_packets = 0 then 0 else ns.total_latency / ns.total_packets

/-- `NetworkSimulator.get_packet_loss` (network_simulator.py lines 20-23):
    0.0 when no packet was ever broadcast, otherwise the loss fraction. -/
noncomputable def NetworkSimulator.getPacketLoss (ns : NetworkSimulator) : ℝ :=
  if ns.total_packets = 0 then 0 else (ns.lost_packets : ℝ) / ns.total_packets

open Classical in
/-- Dict assignment `all_messages[hash] = (sender, message)` keyed by digest. -/
noncomputable def upsertPending :
    List (V2VMessage × String × V2VMessage) → V2VMessage → String × V2VMessage →
    List (V2VMessage × String × V2VMessage)
  | [], key, v => [(key, v)]
  | (k, c) :: rest, key, v =>
      if k = key then (key, v) :: rest else (k, c) :: upsertPending rest key v

/-- `NetworkSimulator.broadcast_message` (network_simulator.py lines 25-34):
    count the packet, consume one loss sample; on a drop count it lost and
    return, otherwise store `(sender, message)` under the digest key.
    Returns the new medium and loss-sample cursor. -/
noncomputable def NetworkSimulator.broadcastMessage (ns : NetworkSimulator)
    (senderId : String) (message : V2VMessage) (message_hash : V2VMessage)
    (drop : ℕ → Bool) (d : ℕ) : NetworkSimulator × ℕ :=
  let ns1 : NetworkSimulator := { ns with total_packets := ns.total_packets + 1 }
  if drop d then
    ({ ns1 with lost_packets := ns1.lost_packets + 1 }, d + 1)
  else
    ({ ns1 with all_messages := upsertPending ns1.all_messages message_hash (senderId, message) },
     d + 1)

/-- `Protocol.send` (protocol.py lines 49-73).  The digest is computed FIRST,
    over the message as handed in (line 50).  For a CWM the connection for the
    target is looked up or created, `last_use` is set to `time.time()`
    (one wall reading) and the CWM is appended; if the queue then holds more
    than one CWM the function returns without transmitting.  Otherwise
    `transmit_time := last_use`, and in all transmitting paths
    `message.timestamp = time.time()` (a fresh wall reading) mutates the
    message object — including the copy just appended to the queue — before it
    is handed to the medium together with the digest computed at entry.
    Returns (protocol, medium, wall cursor, loss cursor). -/
noncomputable def Protocol.send (p : Protocol) (ns : NetworkSimulator)
    (selfId : String) (message : V2VMessage) (wall : ℕ → ℝ) (k : ℕ)
    (drop : ℕ → Bool) (d : ℕ) : Protocol × NetworkSimulator × ℕ × ℕ :=
  let message_hash := getMessageHash message
  match message.body with
  | .cwm _ _ tgt _ =>
      let conn0 := (lookupConn p.outgoing_cwms tgt).getD (mkCWMConnection 0 0)
      let conn1 : CWMConnection :=
        { conn0 with last_use := wall k, cwms := conn0.cwms ++ [message] }
      if conn1.cwms.length > 1 then
        ({ p with outgoing_cwms := setConn p.outgoing_cwms tgt conn1 }, ns, k + 1, d)
      else
        let message1 : V2VMessage := { message with timestamp := wall (k + 1) }
        let conn2 : CWMConnection :=
          { conn1 with transmit_time := conn1.last_use, cwms := [message1] }
        let r := ns.broadcastMessage selfId message1 message_hash drop d
        ({ p with outgoing_cwms := setConn p.outgoing_cwms tgt conn2 },
         r.1, k + 2, r.2)
  | _ =>
      let message1 : V2VMessage := { message with timestamp := wall k }
      let r := ns.broadcastMessage selfId message1 message_hash drop d
      (p, r.1, k + 1, r.2)

open Classical in
/-- `Protocol.receive` (protocol.py lines 75-94): drop the message when it has
    a `target_vehicle_id` other than the receiver, drop it when the digest
    recomputed over the received fields differs from the transmitted digest,
    otherwise put it on the inbound priority queue. -/
noncomputable def Protocol.receive (p : Protocol) (selfId : String)
    (message : V2VMessage) (message_hash : V2VMessage) : Protocol :=
  if (match message.target with
      | some t => decide (selfId ≠ t)
      | none => false) then p
  else if getMessageHash message ≠ message_hash then p
  else { p with incoming_messages := p.incoming_messages ++ [message] }

end V2V

namespace V2V

open Classical in
/-- One step of the minimum search backing the inbound `PriorityQueue.get`:
    scan the list keeping the current minimum w.r.t. `msgLt` (`__lt__`);
    on ties the earlier element is kept.  Returns the minimum and the list
    with that occurrence removed, preserving the order of the others. -/
noncomputable def extractMinAux : V2VMessage → List V2VMessage →
    V2VMessage × List V2VMessage
  | m, [] => (m, [])
  | m, x :: xs =>
      if msgLt x m then
        let r := extractMinAux x xs
        (r.1, m :: r.2)
      else
        let r := extractMinAux m xs
        (r.1, x :: r.2)

/-- `incoming_messages.get(False)` (protocol.py line 104): extract the
    highest-priority (minimum w.r.t. `__lt__`) message, or nothing when the
    queue is empty (the `Empty` exception). -/
noncomputable def extractMin : List V2VMessage →
    Option (V2VMessage × List V2VMessage)
  | [] => none
  | x :: xs => some (extractMinAux x xs)

/-- Outcome of handling one dequeued message inside `Protocol.process`:
    continue draining, return a message to the caller, or raise
    (`deque.popleft()` from an empty deque, protocol.py line 141). -/
inductive ProcOut where
  | cont
  | ret (m : V2VMessage)
  | crash

/-- The body of the `while True` loop of `Protocol.process`
    (protocol.py lines 106-151), for one dequeued `message`:
    * CWM from sender S (lines 106-128): look up or create the connection for
      S, set `last_use = time.time()`; discard a future sequence
      (`N > recv_seq_num`) with nothing else; otherwise build an ACK for N via
      `create_ack` (which stamps `time.time()`, message.py line 138) and hand
      it to `self.send`; return the CWM (incrementing `recv_seq_num`) exactly
      when `N == recv_seq_num`, else continue.
    * ACK from sender S (lines 130-148): if no connection exists, continue;
      set `last_use = time.time()`; when `N == send_seq_num` increment it and
      pop the head of the deque (raising when the deque is empty); when the
      deque is then non-empty set `transmit_time = time.time()`, restamp the
      new head's timestamp with the next `time.time()` (mutating the queued
      object) and broadcast it with a digest computed over the restamped
      fields.
    * anything else (lines 150-151): return it to the caller.
    Returns (protocol, medium, wall cursor, loss cursor, outcome). -/
noncomputable def Protocol.processOne (p : Protocol) (ns : NetworkSimulator)
    (selfId : String) (message : V2VMessage) (wall : ℕ → ℝ) (k : ℕ)
    (drop : ℕ → Bool) (d : ℕ) :
    Protocol × NetworkSimulator × ℕ × ℕ × ProcOut :=
  match message.body with
  | .cwm seq _ _ _ =>
      let conn0 := (lookupConn p.outgoing_cwms message.vehicle_id).getD
        (mkCWMConnection 0 0)
      let conn1 : CWMConnection := { conn0 with last_use := wall k }
      let p1 : Protocol :=
        { p with outgoing_cwms := setConn p.outgoing_cwms message.vehicle_id conn1 }
      if seq > conn1.recv_seq_num then
        (p1, ns, k + 1, d, .cont)
      else
        let ackMsg : V2VMessage :=
          ⟨selfId, wall (k + 1), .ack seq message.vehicle_id⟩
        let r := Protocol.send p1 ns selfId ackMsg wall (k + 2) drop d
        if seq = conn1.recv_seq_num then
          let conn2 : CWMConnection :=
            { conn1 with recv_seq_num := conn1.recv_seq_num + 1 }
          let p2 : Protocol :=
            { r.1 with outgoing_cwms :=
                setConn r.1.outgoing_cwms message.vehicle_id conn2 }
          (p2, r.2.1, r.2.2.1, r.2.2.2, .ret message)
        else
          (r.1, r.2.1, r.2.2.1, r.2.2.2, .cont)
  | .ack seq _ =>
      match lookupConn p.outgoing_cwms message.vehicle_id with
      | none => (p, ns, k, d, .cont)
      | some conn0 =>
          let conn1 : CWMConnection := { conn0 with last_use := wall k }
          if seq = conn1.send_seq_num then
            let conn2 : CWMConnection :=
              { conn1 with send_seq_num := conn1.send_seq_num + 1 }
            match conn2.cwms with
            | [] =>
                let p2 : Protocol :=
                  { p with outgoing_cwms :=
                      setConn p.outgoing_cwms message.vehicle_id conn2 }
                (p2, ns, k + 1, d, .crash)
            | _ :: rest =>
                match rest with
                | [] =>
                    let conn3 : CWMConnection := { conn2 with cwms := [] }
                    let p2 : Protocol :=
                      { p with outgoing_cwms :=
                          setConn p.outgoing_cwms message.vehicle_id conn3 }
                    (p2, ns, k + 1, d, .cont)
                | next :: tail =>
                    let next1 : V2VMessage :=
                      { next with timestamp := wall (k + 2) }
                    let conn3 : CWMConnection :=
                      { conn2 with cwms := next1 :: tail,
                                   transmit_time := wall (k + 1) }
                    let r := ns.broadcastMessage selfId next1
                      (getMessageHash next1) drop d
                    let p2 : Protocol :=
                      { p with outgoing_cwms :=
                          setConn p.outgoing_cwms message.vehicle_id conn3 }
                    (p2, r.1, k + 3, r.2, .cont)
          else
            let p2 : Protocol :=
              { p with outgoing_cwms :=
                  setConn p.outgoing_cwms message.vehicle_id conn1 }
            (p2, ns, k + 1, d, .cont)
  | .bsm _ _ _ _ _ _ _ => (p, ns, k, d, .ret message)

/-- `Protocol.process` (protocol.py lines 96-154): drain the inbound queue
    until a processable message is found or the queue empties.  The `fuel`
    parameter bounds the number of loop iterations; since every iteration
    removes one message from the queue and never adds one, fuel equal to the
    queue length makes the recursion exhaustive, exactly like the source's
    `while True` / `Empty` loop.  The final component records whether the
    loop raised (`ProcOut.crash`). -/
noncomputable def Protocol.process (fuel : ℕ) (p : Protocol)
    (ns : NetworkSimulator) (selfId : String) (wall : ℕ → ℝ) (k : ℕ)
    (drop : ℕ → Bool) (d : ℕ) :
    Protocol × NetworkSimulator × ℕ × ℕ × Option V2VMessage × Bool :=
  match fuel with
  | 0 => (p, ns, k, d, none, false)
  | fuel + 1 =>
      match extractMin p.incoming_messages with
      | none => (p, ns, k, d, none, false)
      | some (m, rest) =>
          let p1 : Protocol := { p with incoming_messages := rest }
          let r := Protocol.processOne p1 ns selfId m wall k drop d
          match r.2.2.2.2 with
          | .ret msg => (r.1, r.2.1, r.2.2.1, r.2.2.2.1, some msg, false)
          | .crash => (r.1, r.2.1, r.2.2.1, r.2.2.2.1, none, true)
          | .cont => Protocol.process fuel r.1 r.2.1 selfId wall r.2.2.1 drop r.2.2.2.1

/-- The body of the `for key, cwm_connection in list(...)` loop of
    `Protocol.manage` (protocol.py lines 158-178), for one connection entry:
    * empty deque (lines 164-168): read `time.time()`; prune the connection
      when it has been idle longer than `CONNECTION_TIME`;
    * non-empty deque (lines 174-178): read `time.time()`; when the head has
      been unacknowledged longer than `RETRANSMIT`, set `transmit_time` and
      the head's timestamp (mutating the queued object) to fresh readings and
      broadcast the head with a digest over the restamped fields; `last_use`
      is deliberately not refreshed.
    Returns (entry kept?, medium, wall cursor, loss cursor). -/
noncomputable def manageConnStep (selfId : String) (ns : NetworkSimulator)
    (wall : ℕ → ℝ) (k : ℕ) (drop : ℕ → Bool) (d : ℕ)
    (conn : CWMConnection) :
    Option CWMConnection × NetworkSimulator × ℕ × ℕ :=
  match conn.cwms with
  | [] =>
      if wall k - conn.last_use > CONFIG_CONNECTION_TIME then
        (none, ns, k + 1, d)
      else
        (some conn, ns, k + 1, d)
  | cwm :: rest =>
      if wall k - conn.transmit_time > CONFIG_RETRANSMIT then
        let cwm1 : V2VMessage := { cwm with timestamp := wall (k + 2) }
        let conn1 : CWMConnection :=
          { conn with cwms := cwm1 :: rest, transmit_time := wall (k + 1) }
        let r := ns.broadcastMessage selfId cwm1 (getMessageHash cwm1) drop d
        (some conn1, r.1, k + 3, r.2)
      else
        (some conn, ns, k + 1, d)

/-- `Protocol.manage` (protocol.py lines 156-178): fold `manageConnStep` over
    the connection table in insertion order, dropping pruned entries. -/
noncomputable def manageConns (selfId : String) :
    List (String × CWMConnection) → NetworkSimulator → (ℕ → ℝ) → ℕ →
    (ℕ → Bool) → ℕ →
    List (String × CWMConnection) × NetworkSimulator × ℕ × ℕ
  | [], ns, _, k, _, d => ([], ns, k, d)
  | (key, conn) :: rest, ns, wall, k, drop, d =>
      let r := manageConnStep selfId ns wall k drop d conn
      let rr := manageConns selfId rest r.2.1 wall r.2.2.1 drop r.2.2.2
      match r.1 with
      | none => (rr.1, rr.2.1, rr.2.2.1, rr.2.2.2)
      | some conn1 => ((key, conn1) :: rr.1, rr.2.1, rr.2.2.1, rr.2.2.2)

/-- `Protocol.manage` at the protocol level. -/
noncomputable def Protocol.manage (p : Protocol) (ns : NetworkSimulator)
    (selfId : String) (wall : ℕ → ℝ) (k : ℕ) (drop : ℕ → Bool) (d : ℕ) :
    Protocol × NetworkSimulator × ℕ × ℕ :=
  let r := manageConns selfId p.outgoing_cwms ns wall k drop d
  ({ p with outgoing_cwms := r.1 }, r.2.1, r.2.2.1, r.2.2.2)

end V2V

namespace V2V

/-- `VehicleState` (vehicle.py lines 8-19): snapshot of a peer.  Its
    `timestamp` field is stamped with `time.time()` AT CONSTRUCTION
    (line 11); no message field is ever written to it. -/
structure VehicleState where
  timestamp : ℝ
  position_x : ℝ
  position_y : ℝ
  velocity : ℝ
  acceleration : ℝ
  heading : ℝ
  length : ℝ
  width : ℝ

/-- `VehicleState.__init__(position, velocity, acceleration, heading, length,
    width)`: consumes one wall reading for `self.timestamp = time.time()`. -/
def mkVehicleState (wall : ℕ → ℝ) (k : ℕ)
    (px py velocity acceleration heading length width : ℝ) : VehicleState :=
  ⟨wall k, px, py, velocity, acceleration, heading, length, width⟩

/-- The mutable state of a `Vehicle` (vehicle.py lines 21-52) that the claims
    touch: physics state, the owned `Protocol`, the belief-map
    `vehicle_map`, dimensions, control and BSM-timing state. -/
structure Vehicle where
  vehicle_id : String
  position_x : ℝ
  position_y : ℝ
  velocity : ℝ
  acceleration : ℝ
  heading : ℝ
  protocol : Protocol
  vehicle_map : List (String × VehicleState)
  length : ℝ
  width : ℝ
  target_velocity : ℝ
  emergency_braking : Bool
  last_bsm_time : ℝ

/-- Belief-map lookup (Python dict, first entry with the key). -/
def lookupVS : List (String × VehicleState) → String → Option VehicleState
  | [], _ => none
  | (k, c) :: rest, key => if k = key then some c else lookupVS rest key

/-- Belief-map assignment `vehicle_map[id] = state`. -/
def setVS : List (String × VehicleState) → String → VehicleState →
    List (String × VehicleState)
  | [], key, vs => [(key, vs)]
  | (k, c) :: rest, key, vs =>
      if k = key then (key, vs) :: rest else (k, c) :: setVS rest key vs

/-- The body of the `while message != None` loop of `Vehicle.process_messages`
    (vehicle.py lines 97-107) for one returned message: a BSM overwrites the
    belief-map entry for its sender with a fresh `VehicleState` built from the
    message fields (in the source's argument order: position, velocity,
    acceleration, heading, length, width); a CWM is ignored (the source only
    has a comment there); anything else falls through both branches. -/
noncomputable def Vehicle.applyProcessed (v : Vehicle) (message : V2VMessage)
    (wall : ℕ → ℝ) (k : ℕ) : Vehicle × ℕ :=
  match message.body with
  | .bsm px py vel hd acc len w =>
      let vs := mkVehicleState wall k px py vel acc hd len w
      ({ v with vehicle_map := setVS v.vehicle_map message.vehicle_id vs }, k + 1)
  | _ => (v, k)

/-- `Vehicle.process_messages` (vehicle.py lines 95-109): repeatedly call
    `Protocol.process` and apply each returned message until it returns
    nothing.  `fuel` bounds the number of outer iterations; every successful
    `process` call removes at least one queued message, so fuel exceeding the
    queue length is exhaustive.  The Bool records a raised exception. -/
noncomputable def Vehicle.processMessages (fuel : ℕ) (v : Vehicle)
    (ns : NetworkSimulator) (wall : ℕ → ℝ) (k : ℕ) (drop : ℕ → Bool) (d : ℕ) :
    Vehicle × NetworkSimulator × ℕ × ℕ × Bool :=
  match fuel with
  | 0 => (v, ns, k, d, false)
  | fuel + 1 =>
      let r := Protocol.process v.protocol.incoming_messages.length v.protocol
        ns v.vehicle_id wall k drop d
      let v1 : Vehicle := { v with protocol := r.1 }
      if r.2.2.2.2.2 then
        (v1, r.2.1, r.2.2.1, r.2.2.2.1, true)
      else
        match r.2.2.2.2.1 with
        | none => (v1, r.2.1, r.2.2.1, r.2.2.2.1, false)
        | some m =>
            let a := v1.applyProcessed m wall r.2.2.1
            Vehicle.processMessages fuel a.1 r.2.1 wall a.2 drop r.2.2.2.1

/-- The belief-map pruning loop of `Vehicle.manage` (vehicle.py lines
    117-121): one `time.time()` reading per entry; entries older than
    `CONFIG.CONNECTION_TIME` are deleted. -/
noncomputable def pruneVehicleMap (wall : ℕ → ℝ) :
    ℕ → List (String × VehicleState) → List (String × VehicleState) × ℕ
  | k, [] => ([], k)
  | k, (key, vs) :: rest =>
      let r := pruneVehicleMap wall (k + 1) rest
      if wall k - vs.timestamp > CONFIG_CONNECTION_TIME then (r.1, r.2)
      else ((key, vs) :: r.1, r.2)

/-- `Vehicle.manage` (vehicle.py lines 111-121): run `Protocol.manage`, then
    prune stale belief-map entries. -/
noncomputable def Vehicle.manage (v : Vehicle) (ns : NetworkSimulator)
    (wall : ℕ → ℝ) (k : ℕ) (drop : ℕ → Bool) (d : ℕ) :
    Vehicle × NetworkSimulator × ℕ × ℕ :=
  let r := Protocol.manage v.protocol ns v.vehicle_id wall k drop d
  let pm := pruneVehicleMap wall r.2.2.1 v.vehicle_map
  ({ v with protocol := r.1, vehicle_map := pm.1 }, r.2.1, pm.2, r.2.2.2)

/-- numpy's ordered comparison of a complex value against 0 (`roots > 0`):
    lexicographic on (real part, imaginary part), exactly like `np.sort` on
    complex arrays.  A complex root with positive real part therefore PASSES
    the positivity filter of `compute_ttc`. -/
def cplxPos (z : ℂ) : Prop := 0 < z.re ∨ (z.re = 0 ∧ 0 < z.im)

noncomputable instance (z : ℂ) : Decidable (cplxPos z) :=
  Classical.propDecidable _

/-- numpy's ordered comparison of a complex value against a real bound
    (`ttc < CONFIG.COLLISION_TIME_THRESHOLD` in
    `detect_potential_collisions`): lexicographic on (real part, imaginary
    part) with the real bound read as imaginary part 0. -/
def cplxLtReal (z : ℂ) (x : ℝ) : Prop := z.re < x ∨ (z.re = x ∧ z.im < 0)

noncomputable instance (z : ℂ) (x : ℝ) : Decidable (cplxLtReal z x) :=
  Classical.propDecidable _

open Classical in
/-- `np.roots([a, b, c])`: the roots, possibly complex, in numpy's output
    order.  Following numpy's `roots` source, leading zero coefficients are
    stripped (degenerate degrees) and trailing zero coefficients are
    stripped and re-appended as zero roots AT THE END of the output.  For a
    true quadratic the roots are the eigenvalues of the 2×2 companion
    matrix, in LAPACK order (dgeev → dhseqr → dlanv2):
    * real eigenvalues (nonnegative discriminant): the eigenvalue
      `p + sign(p)·√(p² + bc)` comes first, where `p = -b/(2a)` is half the
      root sum — so with `p ≥ 0` the larger root comes first, otherwise the
      smaller;
    * a complex-conjugate pair (negative discriminant): dlanv2 returns the
      eigenvalue with POSITIVE imaginary part first (RT1I > 0), i.e.
      `-b/(2a) + i·√(4ac − b²)/(2|a|)` before its conjugate.
    `np.isfinite` holds for every entry in this exact-arithmetic model. -/
noncomputable def npRoots2 (a b c : ℝ) : List ℂ :=
  if a = 0 then
    if b = 0 then []
    else if c = 0 then [0]
    else [((-c / b : ℝ) : ℂ)]
  else
    if c = 0 then
      if b = 0 then [0, 0] else [((-b / a : ℝ) : ℂ), 0]
    else
      if b ^ 2 - 4 * a * c < 0 then
        [⟨-b / (2 * a), Real.sqrt (4 * a * c - b ^ 2) / (2 * |a|)⟩,
         ⟨-b / (2 * a), -(Real.sqrt (4 * a * c - b ^ 2) / (2 * |a|))⟩]
      else
        let r1 := (-b + Real.sqrt (b ^ 2 - 4 * a * c)) / (2 * a)
        let r2 := (-b - Real.sqrt (b ^ 2 - 4 * a * c)) / (2 * a)
        if 0 ≤ -b / (2 * a) then [((max r1 r2 : ℝ) : ℂ), ((min r1 r2 : ℝ) : ℂ)]
        else [((min r1 r2 : ℝ) : ℂ), ((max r1 r2 : ℝ) : ℂ)]

open Classical in
/-- `Vehicle.compute_ttc` (vehicle.py lines 151-183): bumper-to-bumper gap,
    coefficients `[(Δa)/2, Δv, gap]`, `np.roots`, keep the roots passing
    numpy's lexicographic positivity test `roots > 0` (finiteness is
    automatic in this exact model), and return the FIRST of them
    (`time[0]`; the source does not sort).  Note the returned value is
    COMPLEX when the discriminant is negative and the conjugate pair has a
    lexicographically positive entry. -/
noncomputable def Vehicle.computeTTC (v : Vehicle) (front : VehicleState) :
    Option ℂ :=
  let bumper_to_bumper_distance :=
    (front.position_x - front.length / 2) - (v.position_x + v.length / 2)
  let time := (npRoots2 ((front.acceleration - v.acceleration) / 2)
    (front.velocity - v.velocity) bumper_to_bumper_distance).filter
    (fun r => decide (cplxPos r))
  time.head?

open Classical in
/-- The scan loop of `VehicleManager.detect_potential_collisions`
    (vehicle.py lines 224-253) over the belief map already sorted by
    ascending peer x: skip peers not strictly ahead, skip peers without
    lateral overlap, skip peers without a TTC; on `ttc <
    COLLISION_TIME_THRESHOLD` activate emergency braking
    (`emergency_braking := true`, `target_velocity := 0`) and return the CWM
    built by `create_cwm` (one `time.time()` reading for its timestamp,
    sequence number from `Protocol.get_seq_num`). -/
noncomputable def detectLoop (v : Vehicle) (wall : ℕ → ℝ) (k : ℕ) :
    List (String × VehicleState) → Vehicle × Option V2VMessage × ℕ
  | [] => (v, none, k)
  | (peerId, vs) :: rest =>
      if vs.position_x ≤ v.position_x then detectLoop v wall k rest
      else
        let rear_right := v.position_y - v.width / 2
        let rear_left := v.position_y + v.width / 2
        let front_right := vs.position_y - vs.width / 2
        let front_left := vs.position_y + vs.width / 2
        if rear_right > front_left ∨ rear_left < front_right then
          detectLoop v wall k rest
        else
          match v.computeTTC vs with
          | none => detectLoop v wall k rest
          | some ttc =>
              if cplxLtReal ttc CONFIG_COLLISION_TIME_THRESHOLD then
                let v1 : Vehicle :=
                  { v with emergency_braking := true, target_velocity := 0 }
                let cwm : V2VMessage :=
                  ⟨v.vehicle_id, wall k,
                   .cwm (v.protocol.getSeqNum peerId) "rear_end_risk" peerId ttc⟩
                (v1, some cwm, k + 1)
              else detectLoop v wall k rest

open Classical in
/-- `VehicleManager.detect_potential_collisions` (vehicle.py lines 221-253):
    sort the belief map by ascending peer x (`sorted` is stable) and scan. -/
noncomputable def Vehicle.detectPotentialCollisions (v : Vehicle)
    (wall : ℕ → ℝ) (k : ℕ) : Vehicle × Option V2VMessage × ℕ :=
  detectLoop v wall k
    (v.vehicle_map.mergeSort (fun a b => decide (a.2.position_x ≤ b.2.position_x)))

open Classical in
/-- `Vehicle.should_send_bsm` (vehicle.py lines 81-82); `current_time` is the
    engine's simulated clock `env.now`. -/
noncomputable def Vehicle.shouldSendBsm (v : Vehicle) (current_time : ℝ) : Bool :=
  decide (current_time - v.last_bsm_time ≥ CONFIG_BSM_INTERVAL)

/-- `create_bsm` (message.py lines 89-101): a BSM from the current vehicle
    state; its timestamp consumes one `time.time()` reading. -/
noncomputable def createBsm (v : Vehicle) (wall : ℕ → ℝ) (k : ℕ) :
    V2VMessage × ℕ :=
  (⟨v.vehicle_id, wall k,
    .bsm v.position_x v.position_y v.velocity v.heading v.acceleration
      v.length v.width⟩, k + 1)

/-- `Vehicle.generate_bsm` (vehicle.py lines 85-87): set
    `last_bsm_time := current_time` (the simulated clock) and build the BSM. -/
noncomputable def Vehicle.generateBsm (v : Vehicle) (current_time : ℝ)
    (wall : ℕ → ℝ) (k : ℕ) : Vehicle × V2VMessage × ℕ :=
  let b := createBsm v wall k
  ({ v with last_bsm_time := current_time }, b.1, b.2)

end V2V

namespace V2V

/-- The state a single vehicle's slice of `SimulationEngine.simulation_loop`
    acts on: the vehicle, the shared medium, the two stream cursors, and a
    flag recording that an uncaught exception was raised earlier in the tick
    (in which case the remaining statements do not run). -/
structure VWorld where
  vehicle : Vehicle
  ns : NetworkSimulator
  k : ℕ
  d : ℕ
  crashed : Bool

/-- Sub-step (line 59 of simulation_engine.py): `vehicle.process_messages`. -/
noncomputable def processStep (wall : ℕ → ℝ) (drop : ℕ → Bool) (w : VWorld) :
    VWorld :=
  if w.crashed then w
  else
    let r := Vehicle.processMessages
      (w.vehicle.protocol.incoming_messages.length + 1) w.vehicle w.ns wall
      w.k drop w.d
    ⟨r.1, r.2.1, r.2.2.1, r.2.2.2.1, r.2.2.2.2⟩

/-- Sub-step (line 60): `vehicle.manage`. -/
noncomputable def manageStep (wall : ℕ → ℝ) (drop : ℕ → Bool) (w : VWorld) :
    VWorld :=
  if w.crashed then w
  else
    let r := Vehicle.manage w.vehicle w.ns wall w.k drop w.d
    ⟨r.1, r.2.1, r.2.2.1, r.2.2.2, false⟩

/-- Sub-step (lines 62-73): run the collision detector; when it fires the
    vehicle is already emergency-braking and the CWM is handed to
    `vehicle.send_message` (engine counters and observer callbacks are
    outside the modelled core). -/
noncomputable def collisionStep (wall : ℕ → ℝ) (drop : ℕ → Bool) (w : VWorld) :
    VWorld :=
  if w.crashed then w
  else
    let r := Vehicle.detectPotentialCollisions w.vehicle wall w.k
    match r.2.1 with
    | none => ⟨r.1, w.ns, r.2.2, w.d, false⟩
    | some cwm =>
        let s := Protocol.send r.1.protocol w.ns r.1.vehicle_id cwm wall
          r.2.2 drop w.d
        ⟨{ r.1 with protocol := s.1 }, s.2.1, s.2.2.1, s.2.2.2, false⟩

/-- Sub-step (lines 75-85): when `should_send_bsm(current_time)` holds,
    generate the BSM (updating `last_bsm_time` to the simulated clock) and
    hand it to `vehicle.send_message`. -/
noncomputable def bsmStep (now : ℝ) (wall : ℕ → ℝ) (drop : ℕ → Bool)
    (w : VWorld) : VWorld :=
  if w.crashed then w
  else
    if w.vehicle.shouldSendBsm now then
      let g := Vehicle.generateBsm w.vehicle now wall w.k
      let s := Protocol.send g.1.protocol w.ns g.1.vehicle_id g.2.1 wall
        g.2.2 drop w.d
      ⟨{ g.1 with protocol := s.1 }, s.2.1, s.2.2.1, s.2.2.2, false⟩
    else w

/-- The per-vehicle phase of `SimulationEngine.simulation_loop`
    (simulation_engine.py lines 58-85), in the source's statement order:
    `process_messages` (line 59), then `manage` (line 60), then the collision
    detector with its CWM broadcast (lines 62-73), then the BSM emission
    (lines 75-85).  `now` is the simulated clock `env.now` captured at line
    47. -/
noncomputable def perVehicleBody (now : ℝ) (wall : ℕ → ℝ) (drop : ℕ → Bool)
    (w : VWorld) : VWorld :=
  bsmStep now wall drop
    (collisionStep wall drop (manageStep wall drop (processStep wall drop w)))

/-- The per-vehicle phase in the ORDER THE SPEC CLAIMS (spec.md §4.1, claim
    C4): process, then collision detection, then BSM emission, and
    `Protocol.manage` strictly last.  This definition follows the claim's
    words; it exists to be compared with `perVehicleBody`, which follows the
    source. -/
noncomputable def claimedPerVehicleBody (now : ℝ) (wall : ℕ → ℝ)
    (drop : ℕ → Bool) (w : VWorld) : VWorld :=
  manageStep wall drop
    (bsmStep now wall drop (collisionStep wall drop (processStep wall drop w)))

end V2V

namespace V2V

/-- Looking up a key right after setting it yields the just-set value. -/
theorem lookupConn_setConn_self (l : List (String × CWMConnection))
    (key : String) (conn : CWMConnection) :
    lookupConn (setConn l key conn) key = some conn := by
  induction l with
  | nil => simp [setConn, lookupConn]
  | cons hd tl ih =>
      obtain ⟨k0, c0⟩ := hd
      by_cases h : k0 = key
      · simp [setConn, lookupConn, h]
      · simp [setConn, lookupConn, h, ih]

/-- A fixed wall-clock stream advancing by one per reading. -/
noncomputable def wallOne : ℕ → ℝ := fun n => (n : ℝ) + 1

/-- A second wall-clock stream, shifted by one. -/
noncomputable def wallTwo : ℕ → ℝ := fun n => (n : ℝ) + 2

/-- A loss-sampler stream that never drops. -/
def dropNone : ℕ → Bool := fun _ => false

/-- A sample BSM as `create_bsm` builds it at wall reading 0: the creation
    timestamp is 0. -/
noncomputable def sampleBsm : V2VMessage :=
  ⟨"V001", 0, .bsm 0 0 27 0 0 4 2⟩

/-- C10: when no packets have ever been broadcast (`total_packets == 0`),
    `get_average_latency` and `get_packet_loss` both return 0.0 instead of
    dividing by zero. -/
theorem c10_zero_packet_guard (ns : NetworkSimulator)
    (h : ns.total_packets = 0) :
    ns.getAverageLatency = 0 ∧ ns.getPacketLoss = 0 := by
  constructor <;>
    simp [NetworkSimulator.getAverageLatency, NetworkSimulator.getPacketLoss, h]

theorem c10_zero_packet_guard_witness :
    mkNetworkSimulator.total_packets = 0 ∧
      mkNetworkSimulator.getAverageLatency = 0 ∧
      mkNetworkSimulator.getPacketLoss = 0 :=
  ⟨rfl, c10_zero_packet_guard mkNetworkSimulator rfl⟩

/-- C9 (amended): a processed BSM overwrites the belief-map entry for the
    sender with a snapshot whose position, velocity, acceleration, heading,
    length and width come from the message, but whose `timestamp` is the
    wall-clock reading taken when the `VehicleState` is constructed
    (vehicle.py line 11) — NOT the message's `timestamp` field. -/
theorem c9_bsm_overwrites_belief_map (v : Vehicle) (msg : V2VMessage)
    (wall : ℕ → ℝ) (k : ℕ) (px py vel hd acc len w : ℝ)
    (hbody : msg.body = .bsm px py vel hd acc len w) :
    Vehicle.applyProcessed v msg wall k =
      ({ v with vehicle_map := setVS v.vehicle_map msg.vehicle_id ⟨wall k, px, py, vel, acc, hd, len, w⟩ }, k + 1) := by
  simp [Vehicle.applyProcessed, hbody, mkVehicleState]

/-- A sample BSM from V003 with message timestamp 5. -/
noncomputable def c9bsm : V2VMessage := ⟨"V003", 5, .bsm 10 0 20 0 1 4 2⟩

/-- A vehicle with an empty belief map. -/
noncomputable def c9vehicle : Vehicle :=
  ⟨"V001", 0, 0, 0, 0, 0, mkProtocol, [], 4, 2, 0, false, 0⟩

/-- C9 counterexample: processing a BSM whose `timestamp` field is 5 while
    the wall clock reads 7 stores a snapshot stamped 7, so the stored
    timestamp does NOT equal `msg.timestamp` as the claim states. -/
theorem c9_counterexample :
    (Vehicle.applyProcessed c9vehicle c9bsm (fun _ => (7 : ℝ)) 0).1.vehicle_map
        = [("V003", ⟨7, 10, 0, 20, 1, 0, 4, 2⟩)] ∧
      (7 : ℝ) ≠ c9bsm.timestamp := by
  constructor
  · simp [Vehicle.applyProcessed, c9vehicle, c9bsm, mkVehicleState, setVS,
      mkProtocol]
  · norm_num [c9bsm]

theorem c9_bsm_overwrites_belief_map_witness :
    c9bsm.body = .bsm 10 0 20 0 1 4 2 ∧
      Vehicle.applyProcessed c9vehicle c9bsm (fun _ => (7 : ℝ)) 0 =
        ({ c9vehicle with vehicle_map := setVS c9vehicle.vehicle_map c9bsm.vehicle_id ⟨7, 10, 0, 20, 1, 0, 4, 2⟩ }, 0 + 1) :=
  ⟨rfl, c9_bsm_overwrites_belief_map c9vehicle c9bsm (fun _ => (7 : ℝ)) 0
    10 0 20 0 1 4 2 rfl⟩

/-- C7 (amended): an ACK whose sequence number is below the expected
    `send_seq_num` changes nothing except the connection's `last_use`, which
    is refreshed to the current wall-clock reading (protocol.py line 134):
    queues, both sequence numbers, `transmit_time`, every other connection,
    the medium and the cursors are untouched, and draining continues. -/
theorem c7_reack_only_touches_last_use (p : Protocol) (ns : NetworkSimulator)
    (selfId : String) (message : V2VMessage) (wall : ℕ → ℝ) (k : ℕ)
    (drop : ℕ → Bool) (d : ℕ) (seq : ℤ) (tgt : String) (conn : CWMConnection)
    (hbody : message.body = .ack seq tgt)
    (hconn : lookupConn p.outgoing_cwms message.vehicle_id = some conn)
    (hseq : seq < conn.send_seq_num) :
    Protocol.processOne p ns selfId message wall k drop d =
      ({ p with outgoing_cwms := setConn p.outgoing_cwms message.vehicle_id { conn with last_use := wall k } }, ns, k + 1, d, .cont) := by
  have hne : ¬ seq = conn.send_seq_num := by omega
  simp [Protocol.processOne, hbody, hconn, hne]

/-- A connection with expected ACK sequence 5, last used at time 0. -/
noncomputable def c7conn : CWMConnection := ⟨[], 3, 0, 5, 0⟩

/-- A protocol owning only the connection to V002. -/
noncomputable def c7prot : Protocol := ⟨[("V002", c7conn)], []⟩

/-- A stale re-ack (sequence 2 < expected 5) from V002. -/
noncomputable def c7ack : V2VMessage := ⟨"V002", 2, .ack 2 "V001"⟩

/-- C7 counterexample: processing the stale re-ack does NOT leave the
    Protocol state completely unchanged — `last_use` of the V002 connection
    moves from 0 to the current wall reading 7. -/
theorem c7_counterexample :
    (Protocol.processOne c7prot mkNetworkSimulator "V001" c7ack
        (fun _ => (7 : ℝ)) 0 dropNone 0).1 ≠ c7prot := by
  intro h
  have h2 := congrArg (fun q =>
    (lookupConn q.outgoing_cwms "V002").map CWMConnection.last_use) h
  norm_num [c7prot, c7conn, c7ack, Protocol.processOne, lookupConn, setConn,
    mkNetworkSimulator] at h2

theorem c7_reack_only_touches_last_use_witness :
    c7ack.body = .ack 2 "V001" ∧
      lookupConn c7prot.outgoing_cwms c7ack.vehicle_id = some c7conn ∧
      (2 : ℤ) < c7conn.send_seq_num ∧
      Protocol.processOne c7prot mkNetworkSimulator "V001" c7ack
          (fun _ => (7 : ℝ)) 0 dropNone 0 =
        ({ c7prot with outgoing_cwms := setConn c7prot.outgoing_cwms c7ack.vehicle_id { c7conn with last_use := 7 } },
         mkNetworkSimulator, 0 + 1, 0, .cont) :=
  ⟨rfl, by simp [c7prot, c7ack, lookupConn], by norm_num [c7conn],
   c7_reack_only_touches_last_use c7prot mkNetworkSimulator "V001" c7ack
     (fun _ => (7 : ℝ)) 0 dropNone 0 2 "V001" c7conn rfl
     (by simp [c7prot, c7ack, lookupConn]) (by norm_num [c7conn])⟩

end V2V

namespace V2V

/-- `broadcast_message` consumes exactly one loss sample in both branches. -/
theorem broadcastMessage_snd (ns : NetworkSimulator) (senderId : String)
    (m h : V2VMessage) (drop : ℕ → Bool) (d : ℕ) :
    (ns.broadcastMessage senderId m h drop d).2 = d + 1 := by
  by_cases hd : drop d <;> simp [NetworkSimulator.broadcastMessage, hd]

/-- C5: handling of a dequeued CWM with sequence N from sender S in
    `Protocol.process` (protocol.py lines 106-128).  With `conn0` the
    connection for S (created fresh with sequence numbers (0,0) when absent):
    * `N > recv_seq_num`: the CWM is discarded — no ACK is handed to the
      medium, `recv_seq_num` is unchanged (only `last_use` is refreshed) and
      draining continues;
    * `N == recv_seq_num`: an ACK carrying sequence N targeted at S is
      transmitted, `recv_seq_num` is incremented by one and the CWM is
      returned to the caller;
    * `N < recv_seq_num`: an ACK carrying sequence N targeted at S is
      transmitted, `recv_seq_num` is unchanged and draining continues. -/
theorem c5_cwm_sequencing (p : Protocol) (ns : NetworkSimulator)
    (selfId : String) (message : V2VMessage) (wall : ℕ → ℝ) (k : ℕ)
    (drop : ℕ → Bool) (d : ℕ) (seq : ℤ) (wt tgt : String) (ttc : ℂ)
    (conn0 : CWMConnection)
    (hbody : message.body = .cwm seq wt tgt ttc)
    (hconn : (lookupConn p.outgoing_cwms message.vehicle_id).getD
      (mkCWMConnection 0 0) = conn0) :
    (seq > conn0.recv_seq_num →
      Protocol.processOne p ns selfId message wall k drop d =
        ({ p with outgoing_cwms := setConn p.outgoing_cwms message.vehicle_id { conn0 with last_use := wall k } },
         ns, k + 1, d, .cont)) ∧
    (seq = conn0.recv_seq_num →
      Protocol.processOne p ns selfId message wall k drop d =
        ({ p with outgoing_cwms := setConn (setConn p.outgoing_cwms message.vehicle_id { conn0 with last_use := wall k }) message.vehicle_id { conn0 with last_use := wall k, recv_seq_num := conn0.recv_seq_num + 1 } },
         (ns.broadcastMessage selfId ⟨selfId, wall (k + 2), .ack seq message.vehicle_id⟩ ⟨selfId, wall (k + 1), .ack seq message.vehicle_id⟩ drop d).1,
         k + 3, d + 1, .ret message)) ∧
    (seq < conn0.recv_seq_num →
      Protocol.processOne p ns selfId message wall k drop d =
        ({ p with outgoing_cwms := setConn p.outgoing_cwms message.vehicle_id { conn0 with last_use := wall k } },
         (ns.broadcastMessage selfId ⟨selfId, wall (k + 2), .ack seq message.vehicle_id⟩ ⟨selfId, wall (k + 1), .ack seq message.vehicle_id⟩ drop d).1,
         k + 3, d + 1, .cont)) := by
  refine ⟨?_, ?_, ?_⟩ <;> intro h
  · simp [Protocol.processOne, hbody, hconn, h]
  · have h1 : ¬ seq > conn0.recv_seq_num := by omega
    simp [Protocol.processOne, Protocol.send, getMessageHash, hbody, hconn,
      h1, h, broadcastMessage_snd]
  · have h1 : ¬ seq > conn0.recv_seq_num := by omega
    have h2 : ¬ seq = conn0.recv_seq_num := by omega
    simp [Protocol.processOne, Protocol.send, getMessageHash, hbody, hconn,
      h1, h2, broadcastMessage_snd]

/-- A two-element unacked queue: the head on air and one queued behind it. -/
noncomputable def c5cwmA : V2VMessage := ⟨"V001", 1, .cwm 0 "rear_end_risk" "V002" 2⟩

/-- The CWM queued behind `c5cwmA`. -/
noncomputable def c5cwmB : V2VMessage := ⟨"V001", 2, .cwm 1 "rear_end_risk" "V002" 2⟩

/-- An incoming CWM from V002 with sequence 0. -/
noncomputable def c5inCwm : V2VMessage := ⟨"V002", 3, .cwm 0 "rear_end_risk" "V001" 2⟩

theorem c5_cwm_sequencing_witness :
    c5inCwm.body = .cwm 0 "rear_end_risk" "V001" 2 ∧
      (lookupConn mkProtocol.outgoing_cwms c5inCwm.vehicle_id).getD
        (mkCWMConnection 0 0) = mkCWMConnection 0 0 ∧
      (0 : ℤ) = (mkCWMConnection 0 0).recv_seq_num ∧
      Protocol.processOne mkProtocol mkNetworkSimulator "V001" c5inCwm
          wallOne 0 dropNone 0 =
        ({ mkProtocol with outgoing_cwms := setConn (setConn mkProtocol.outgoing_cwms c5inCwm.vehicle_id { mkCWMConnection 0 0 with last_use := wallOne 0 }) c5inCwm.vehicle_id { mkCWMConnection 0 0 with last_use := wallOne 0, recv_seq_num := (mkCWMConnection 0 0).recv_seq_num + 1 } },
         (mkNetworkSimulator.broadcastMessage "V001" ⟨"V001", wallOne 2, .ack 0 c5inCwm.vehicle_id⟩ ⟨"V001", wallOne 1, .ack 0 c5inCwm.vehicle_id⟩ dropNone 0).1,
         0 + 3, 0 + 1, .ret c5inCwm) :=
  ⟨rfl, rfl, rfl,
   (c5_cwm_sequencing mkProtocol mkNetworkSimulator "V001" c5inCwm wallOne 0
     dropNone 0 0 "rear_end_risk" "V001" 2 (mkCWMConnection 0 0) rfl rfl).2.1
     rfl⟩

/-- C6: when `Protocol.process` dequeues an ACK from peer S whose sequence
    number equals the connection's `send_seq_num` (protocol.py lines
    130-148), it increments `send_seq_num` by one and pops the head of the
    unacked queue exactly once; if the queue is then non-empty the new head
    is immediately transmitted with its timestamp and the connection's
    `transmit_time` set to the wall-clock readings taken at that moment and a
    digest freshly computed over the restamped fields; if the queue is then
    empty nothing is handed to the medium. -/
theorem c6_ack_advances_and_retransmits (p : Protocol) (ns : NetworkSimulator)
    (selfId : String) (message : V2VMessage) (wall : ℕ → ℝ) (k : ℕ)
    (drop : ℕ → Bool) (d : ℕ) (seq : ℤ) (tgt : String) (conn : CWMConnection)
    (hbody : message.body = .ack seq tgt)
    (hconn : lookupConn p.outgoing_cwms message.vehicle_id = some conn)
    (hseq : seq = conn.send_seq_num) :
    (∀ hd next tail, conn.cwms = hd :: next :: tail →
      Protocol.processOne p ns selfId message wall k drop d =
        ({ p with outgoing_cwms := setConn p.outgoing_cwms message.vehicle_id { conn with cwms := { next with timestamp := wall (k + 2) } :: tail, transmit_time := wall (k + 1), last_use := wall k, send_seq_num := conn.send_seq_num + 1 } },
         (ns.broadcastMessage selfId { next with timestamp := wall (k + 2) } (getMessageHash { next with timestamp := wall (k + 2) }) drop d).1,
         k + 3, d + 1, .cont)) ∧
    (∀ hd, conn.cwms = [hd] →
      Protocol.processOne p ns selfId message wall k drop d =
        ({ p with outgoing_cwms := setConn p.outgoing_cwms message.vehicle_id { conn with cwms := [], last_use := wall k, send_seq_num := conn.send_seq_num + 1 } },
         ns, k + 1, d, .cont)) := by
  constructor
  · intro hd next tail hq
    simp [Protocol.processOne, hbody, hconn, hseq, hq, broadcastMessage_snd]
  · intro hd hq
    simp [Protocol.processOne, hbody, hconn, hseq, hq]

/-- A connection to V002 whose queue holds `c5cwmA` (on air) and `c5cwmB`. -/
noncomputable def c6conn : CWMConnection := ⟨[c5cwmA, c5cwmB], 1, 1, 0, 0⟩

/-- A protocol owning only that connection. -/
noncomputable def c6prot : Protocol := ⟨[("V002", c6conn)], []⟩

/-- The ACK from V002 for sequence 0 — exactly the expected `send_seq_num`. -/
noncomputable def c6ack : V2VMessage := ⟨"V002", 2, .ack 0 "V001"⟩

theorem c6_ack_advances_and_retransmits_witness :
    c6ack.body = .ack 0 "V001" ∧
      lookupConn c6prot.outgoing_cwms c6ack.vehicle_id = some c6conn ∧
      (0 : ℤ) = c6conn.send_seq_num ∧
      c6conn.cwms = c5cwmA :: c5cwmB :: [] ∧
      Protocol.processOne c6prot mkNetworkSimulator "V001" c6ack wallOne 0
          dropNone 0 =
        ({ c6prot with outgoing_cwms := setConn c6prot.outgoing_cwms c6ack.vehicle_id { c6conn with cwms := [{ c5cwmB with timestamp := wallOne 2 }], transmit_time := wallOne 1, last_use := wallOne 0, send_seq_num := c6conn.send_seq_num + 1 } },
         (mkNetworkSimulator.broadcastMessage "V001" { c5cwmB with timestamp := wallOne 2 } (getMessageHash { c5cwmB with timestamp := wallOne 2 }) dropNone 0).1,
         0 + 3, 0 + 1, .cont) :=
  ⟨rfl, by simp [c6prot, c6ack, lookupConn], by simp [c6conn],
   by simp [c6conn],
   (c6_ack_advances_and_retransmits c6prot mkNetworkSimulator "V001" c6ack
     wallOne 0 dropNone 0 0 "V001" c6conn rfl
     (by simp [c6prot, c6ack, lookupConn]) (by simp [c6conn])).1 c5cwmA c5cwmB
     [] (by simp [c6conn])⟩

end V2V

namespace V2V

/-- C8: head-of-line discipline for CWMs.  (i) `Protocol.send` appends the
    CWM and returns WITHOUT handing anything to the medium whenever the
    unacked queue held something already (depth > 1 after the append);
    (ii) with an empty queue (depth exactly 1 after the append) it hands the
    appended CWM — the head and sole element of the queue — to the medium;
    (iii) the ACK path of `Protocol.process` hands over exactly the head of
    the queue left after popping the acknowledged CWM; (iv) `Protocol.manage`
    retransmits exactly the head of a non-empty queue. -/
theorem c8_head_of_line :
    (∀ (p : Protocol) (ns : NetworkSimulator) (selfId : String)
      (msg : V2VMessage) (wall : ℕ → ℝ) (k : ℕ) (drop : ℕ → Bool) (d : ℕ)
      (seq : ℤ) (wt tgt : String) (ttc : ℂ) (conn0 : CWMConnection),
      msg.body = .cwm seq wt tgt ttc →
      (lookupConn p.outgoing_cwms tgt).getD (mkCWMConnection 0 0) = conn0 →
      conn0.cwms ≠ [] →
      Protocol.send p ns selfId msg wall k drop d =
        ({ p with outgoing_cwms := setConn p.outgoing_cwms tgt { conn0 with last_use := wall k, cwms := conn0.cwms ++ [msg] } },
         ns, k + 1, d)) ∧
    (∀ (p : Protocol) (ns : NetworkSimulator) (selfId : String)
      (msg : V2VMessage) (wall : ℕ → ℝ) (k : ℕ) (drop : ℕ → Bool) (d : ℕ)
      (seq : ℤ) (wt tgt : String) (ttc : ℂ) (conn0 : CWMConnection),
      msg.body = .cwm seq wt tgt ttc →
      (lookupConn p.outgoing_cwms tgt).getD (mkCWMConnection 0 0) = conn0 →
      conn0.cwms = [] →
      Protocol.send p ns selfId msg wall k drop d =
        ({ p with outgoing_cwms := setConn p.outgoing_cwms tgt { conn0 with last_use := wall k, transmit_time := wall k, cwms := [{ msg with timestamp := wall (k + 1) }] } },
         (ns.broadcastMessage selfId { msg with timestamp := wall (k + 1) } (getMessageHash msg) drop d).1,
         k + 2, d + 1)) ∧
    (∀ (p : Protocol) (ns : NetworkSimulator) (selfId : String)
      (message : V2VMessage) (wall : ℕ → ℝ) (k : ℕ) (drop : ℕ → Bool)
      (d : ℕ) (seq : ℤ) (tgt : String) (conn : CWMConnection)
      (hd next : V2VMessage) (tail : List V2VMessage),
      message.body = .ack seq tgt →
      lookupConn p.outgoing_cwms message.vehicle_id = some conn →
      seq = conn.send_seq_num →
      conn.cwms = hd :: next :: tail →
      (Protocol.processOne p ns selfId message wall k drop d).2.1 =
          (ns.broadcastMessage selfId { next with timestamp := wall (k + 2) } (getMessageHash { next with timestamp := wall (k + 2) }) drop d).1 ∧
        (lookupConn (Protocol.processOne p ns selfId message wall k drop d).1.outgoing_cwms message.vehicle_id).map CWMConnection.cwms =
          some ({ next with timestamp := wall (k + 2) } :: tail)) ∧
    (∀ (selfId : String) (ns : NetworkSimulator) (wall : ℕ → ℝ) (k : ℕ)
      (drop : ℕ → Bool) (d : ℕ) (conn : CWMConnection) (hd : V2VMessage)
      (rest : List V2VMessage),
      conn.cwms = hd :: rest →
      wall k - conn.transmit_time > CONFIG_RETRANSMIT →
      manageConnStep selfId ns wall k drop d conn =
        (some { conn with cwms := { hd with timestamp := wall (k + 2) } :: rest, transmit_time := wall (k + 1) },
         (ns.broadcastMessage selfId { hd with timestamp := wall (k + 2) } (getMessageHash { hd with timestamp := wall (k + 2) }) drop d).1,
         k + 3, d + 1)) := by
  refine ⟨?_, ?_, ?_, ?_⟩
  · intro p ns selfId msg wall k drop d seq wt tgt ttc conn0 hbody hconn hne
    have hlen : 0 < conn0.cwms.length := List.length_pos.mpr hne
    have hgt : conn0.cwms.length + 1 > 1 := by omega
    simp [Protocol.send, hbody, hconn, hgt, getMessageHash]
  · intro p ns selfId msg wall k drop d seq wt tgt ttc conn0 hbody hconn hemp
    simp [Protocol.send, hbody, hconn, hemp, getMessageHash,
      broadcastMessage_snd]
  · intro p ns selfId message wall k drop d seq tgt conn hd next tail hbody
      hconn hseq hq
    simp [Protocol.processOne, hbody, hconn, hseq, hq, broadcastMessage_snd,
      lookupConn_setConn_self]
  · intro selfId ns wall k drop d conn hd rest hq htime
    simp [manageConnStep, hq, htime, broadcastMessage_snd, getMessageHash]

/-- A fresh CWM from V001 to V002, sequence 2, built at wall reading 0. -/
noncomputable def c8cwm : V2VMessage := ⟨"V001", 0, .cwm 2 "rear_end_risk" "V002" 2⟩

theorem c8_head_of_line_witness :
    (c8cwm.body = .cwm 2 "rear_end_risk" "V002" 2 ∧
      (lookupConn c6prot.outgoing_cwms "V002").getD (mkCWMConnection 0 0) = c6conn ∧
      c6conn.cwms ≠ [] ∧
      Protocol.send c6prot mkNetworkSimulator "V001" c8cwm wallOne 0 dropNone 0 =
        ({ c6prot with outgoing_cwms := setConn c6prot.outgoing_cwms "V002" { c6conn with last_use := wallOne 0, cwms := c6conn.cwms ++ [c8cwm] } },
         mkNetworkSimulator, 0 + 1, 0)) ∧
    ((lookupConn mkProtocol.outgoing_cwms "V002").getD (mkCWMConnection 0 0) = mkCWMConnection 0 0 ∧
      (mkCWMConnection 0 0).cwms = [] ∧
      Protocol.send mkProtocol mkNetworkSimulator "V001" c8cwm wallOne 0 dropNone 0 =
        ({ mkProtocol with outgoing_cwms := setConn mkProtocol.outgoing_cwms "V002" { mkCWMConnection 0 0 with last_use := wallOne 0, transmit_time := wallOne 0, cwms := [{ c8cwm with timestamp := wallOne 1 }] } },
         (mkNetworkSimulator.broadcastMessage "V001" { c8cwm with timestamp := wallOne 1 } (getMessageHash c8cwm) dropNone 0).1,
         0 + 2, 0 + 1)) ∧
    ((Protocol.processOne c6prot mkNetworkSimulator "V001" c6ack wallOne 0 dropNone 0).2.1 =
        (mkNetworkSimulator.broadcastMessage "V001" { c5cwmB with timestamp := wallOne 2 } (getMessageHash { c5cwmB with timestamp := wallOne 2 }) dropNone 0).1 ∧
      (lookupConn (Protocol.processOne c6prot mkNetworkSimulator "V001" c6ack wallOne 0 dropNone 0).1.outgoing_cwms c6ack.vehicle_id).map CWMConnection.cwms =
        some [{ c5cwmB with timestamp := wallOne 2 }]) ∧
    (c6conn.cwms = c5cwmA :: [c5cwmB] ∧
      wallTwo 0 - c6conn.transmit_time > CONFIG_RETRANSMIT ∧
      manageConnStep "V001" mkNetworkSimulator wallTwo 0 dropNone 0 c6conn =
        (some { c6conn with cwms := { c5cwmA with timestamp := wallTwo 2 } :: [c5cwmB], transmit_time := wallTwo 1 },
         (mkNetworkSimulator.broadcastMessage "V001" { c5cwmA with timestamp := wallTwo 2 } (getMessageHash { c5cwmA with timestamp := wallTwo 2 }) dropNone 0).1,
         0 + 3, 0 + 1)) := by
  refine ⟨⟨rfl, rfl, by simp [c6conn], ?_⟩, ⟨rfl, rfl, ?_⟩, ?_, ⟨rfl, ?_, ?_⟩⟩
  · exact c8_head_of_line.1 c6prot mkNetworkSimulator "V001" c8cwm wallOne 0
      dropNone 0 2 "rear_end_risk" "V002" 2 c6conn rfl rfl (by simp [c6conn])
  · exact c8_head_of_line.2.1 mkProtocol mkNetworkSimulator "V001" c8cwm
      wallOne 0 dropNone 0 2 "rear_end_risk" "V002" 2 (mkCWMConnection 0 0)
      rfl rfl rfl
  · exact c8_head_of_line.2.2.1 c6prot mkNetworkSimulator "V001" c6ack wallOne
      0 dropNone 0 0 "V001" c6conn c5cwmA c5cwmB []
      (by simp [c6prot, c6ack, lookupConn]) (by simp [c6prot, c6ack, lookupConn])
      (by simp [c6conn]) (by simp [c6conn])
  · norm_num [c6conn, wallTwo, CONFIG_RETRANSMIT]
  · exact c8_head_of_line.2.2.2 "V001" mkNetworkSimulator wallTwo 0 dropNone 0
      c6conn c5cwmA [c5cwmB] (by simp [c6conn])
      (by norm_num [c6conn, wallTwo, CONFIG_RETRANSMIT])

end V2V

namespace V2V

/-- C1: `Protocol.send` computes the digest at entry (protocol.py line 50)
    and only afterwards overwrites `message.timestamp` with a fresh
    `time.time()` reading (line 72) before handing the message to the
    medium.  On a clock that advanced since the message was created, the
    pending entry therefore pairs the RESTAMPED message with a digest over
    the CREATION-timestamp fields; the receiver recomputes the digest over
    the received fields (line 90), finds a mismatch, and silently discards
    the message.  Concretely: `sampleBsm` is created at reading 0, sent when
    the clock reads 1, the transmitted digest covers timestamp 0, the
    delivered message carries timestamp 1, and `Protocol.receive` returns
    its state unchanged — the first transmission is lost to the digest
    check, contradicting the claim (and the intent of the check's own
    comment, lines 83-89). -/
theorem c1_first_transmission_digest_mismatch :
    (Protocol.send mkProtocol mkNetworkSimulator "V001" sampleBsm wallOne 0 dropNone 0).2.1.all_messages
        = [(sampleBsm, "V001", { sampleBsm with timestamp := 1 })] ∧
      getMessageHash { sampleBsm with timestamp := (1 : ℝ) } ≠ sampleBsm ∧
      Protocol.receive mkProtocol "V002" { sampleBsm with timestamp := 1 } sampleBsm = mkProtocol := by
  refine ⟨?_, ?_, ?_⟩
  · norm_num [Protocol.send, sampleBsm, wallOne, getMessageHash,
      NetworkSimulator.broadcastMessage, dropNone, upsertPending,
      mkNetworkSimulator, mkProtocol]
  · norm_num [getMessageHash, sampleBsm]
  · simp [Protocol.receive, V2VMessage.target, sampleBsm]
    intro heq
    norm_num [getMessageHash] at heq

/-- C2 counterexample: two runs of `Protocol.send` that differ ONLY in the
    wall-clock stream — same protocol state, same medium, same message, same
    loss stream (the seeded sampler) — produce different outputs, because the
    broadcast timestamp is `time.time()`, not the simulated clock.  So a
    fixed seed and spawn list do not determine the output. -/
theorem c2_wall_clock_breaks_determinism :
    Protocol.send mkProtocol mkNetworkSimulator "V001" sampleBsm wallOne 0 dropNone 0 ≠
      Protocol.send mkProtocol mkNetworkSimulator "V001" sampleBsm wallTwo 0 dropNone 0 := by
  intro h
  have h2 := congrArg
    (fun r => r.2.1.all_messages.map (fun e => e.2.2.timestamp)) h
  norm_num [Protocol.send, sampleBsm, wallOne, wallTwo, getMessageHash,
    NetworkSimulator.broadcastMessage, dropNone, upsertPending,
    mkNetworkSimulator, mkProtocol] at h2

/-- C2 (amended): with the wall-clock readings fixed alongside the seed and
    spawn list the embedding is a pure function of its inputs, and the
    timestamp field of every message handed to the medium by
    `Protocol.send` carries the wall-clock reading taken at transmission —
    `wall k` for a BSM or ACK, `wall (k+1)` for an immediately transmitted
    CWM — never the simulated clock. -/
theorem c2_timestamp_carries_wall_clock :
    (∀ (p : Protocol) (ns : NetworkSimulator) (selfId : String)
      (msg : V2VMessage) (wall : ℕ → ℝ) (k : ℕ) (drop : ℕ → Bool) (d : ℕ),
      msg.priorityValue = 1 →
      Protocol.send p ns selfId msg wall k drop d =
        (p, (ns.broadcastMessage selfId { msg with timestamp := wall k } (getMessageHash msg) drop d).1,
         k + 1, d + 1)) ∧
    (∀ (p : Protocol) (ns : NetworkSimulator) (selfId : String)
      (msg : V2VMessage) (wall : ℕ → ℝ) (k : ℕ) (drop : ℕ → Bool) (d : ℕ)
      (seq : ℤ) (wt tgt : String) (ttc : ℂ) (conn0 : CWMConnection),
      msg.body = .cwm seq wt tgt ttc →
      (lookupConn p.outgoing_cwms tgt).getD (mkCWMConnection 0 0) = conn0 →
      conn0.cwms = [] →
      (Protocol.send p ns selfId msg wall k drop d).2.1 =
        (ns.broadcastMessage selfId { msg with timestamp := wall (k + 1) } (getMessageHash msg) drop d).1) := by
  constructor
  · intro p ns selfId msg wall k drop d hpri
    match hb : msg.body with
    | .cwm seq wt tgt ttc =>
        rw [V2VMessage.priorityValue, hb] at hpri
        simp at hpri
    | .bsm px py vel hd acc len w =>
        simp [Protocol.send, hb, getMessageHash, broadcastMessage_snd]
    | .ack seq tgt =>
        simp [Protocol.send, hb, getMessageHash, broadcastMessage_snd]
  · intro p ns selfId msg wall k drop d seq wt tgt ttc conn0 hbody hconn hemp
    simp [Protocol.send, hbody, hconn, hemp, getMessageHash]

theorem c2_timestamp_carries_wall_clock_witness :
    sampleBsm.priorityValue = 1 ∧
      Protocol.send mkProtocol mkNetworkSimulator "V001" sampleBsm wallOne 0 dropNone 0 =
        (mkProtocol, (mkNetworkSimulator.broadcastMessage "V001" { sampleBsm with timestamp := wallOne 0 } (getMessageHash sampleBsm) dropNone 0).1,
         0 + 1, 0 + 1) :=
  ⟨rfl, c2_timestamp_carries_wall_clock.1 mkProtocol mkNetworkSimulator "V001"
    sampleBsm wallOne 0 dropNone 0 rfl⟩

end V2V

namespace V2V

/-- C4 (amended): the per-vehicle phase of `simulation_loop` runs its
    sub-steps in the order (a) drain the inbound queue, (d) `Protocol.manage`
    via `vehicle.manage`, (b) collision detection with CWM broadcast,
    (c) BSM emission — i.e. `manage` runs immediately after draining,
    STRICTLY BEFORE the collision-detection and BSM steps, not after them. -/
theorem c4_per_vehicle_order (now : ℝ) (wall : ℕ → ℝ) (drop : ℕ → Bool)
    (w : VWorld) :
    perVehicleBody now wall drop w =
      bsmStep now wall drop
        (collisionStep wall drop (manageStep wall drop (processStep wall drop w))) :=
  rfl

/-- An idle connection to V002, last used at wall time 0. -/
noncomputable def c4conn : CWMConnection := ⟨[], 0, 0, 0, 0⟩

/-- A vehicle owning that connection, an empty belief map, and a BSM due. -/
noncomputable def c4vehicle : Vehicle :=
  ⟨"V001", 0, 0, 0, 0, 0, ⟨[("V002", c4conn)], []⟩, [], 4, 2, 0, false, 0⟩

/-- The world at the start of the per-vehicle phase. -/
noncomputable def c4world : VWorld := ⟨c4vehicle, mkNetworkSimulator, 0, 0, false⟩

/-- C4 counterexample: running the sub-steps in the order the claim states —
    process, collision, BSM, and `manage` strictly last — produces a
    different result than the source's order on `c4world`: the clock
    readings consumed by `manage` shift the timestamp of the broadcast BSM
    (3 in the source's order, 2 in the claimed order), so the claimed order
    is not the code's order. -/
theorem c4_counterexample :
    perVehicleBody 1 wallOne dropNone c4world ≠
      claimedPerVehicleBody 1 wallOne dropNone c4world := by
  intro h
  have h2 := congrArg
    (fun w => w.ns.all_messages.map (fun e => e.2.2.timestamp)) h
  norm_num [perVehicleBody, claimedPerVehicleBody, processStep, manageStep,
    collisionStep, bsmStep, c4world, c4vehicle, c4conn, mkNetworkSimulator,
    Vehicle.processMessages, Protocol.process, Vehicle.manage,
    Protocol.manage, manageConns, manageConnStep, pruneVehicleMap,
    Vehicle.detectPotentialCollisions, detectLoop, Vehicle.shouldSendBsm,
    Vehicle.generateBsm, createBsm, Protocol.send, getMessageHash,
    NetworkSimulator.broadcastMessage, upsertPending, dropNone, wallOne,
    CONFIG_CONNECTION_TIME, CONFIG_BSM_INTERVAL, CONFIG_RETRANSMIT,
    extractMin] at h2

end V2V

namespace V2V

/-- Any s with `s² = b² - 4ac` gives a root `(-b + s)/(2a)` of the quadratic. -/
theorem quadRoot (a b c s : ℝ) (ha : a ≠ 0) (hs : s ^ 2 = b ^ 2 - 4 * a * c) :
    a * ((-b + s) / (2 * a)) ^ 2 + b * ((-b + s) / (2 * a)) + c = 0 := by
  field_simp
  ring_nf
  nlinarith [hs]

/-- With a nonnegative discriminant, every root of the quadratic is one of
    the two closed-form roots. -/
theorem quadRoots_complete (a b c t : ℝ) (ha : a ≠ 0)
    (hd : 0 ≤ b ^ 2 - 4 * a * c) (ht : a * t ^ 2 + b * t + c = 0) :
    t = (-b + Real.sqrt (b ^ 2 - 4 * a * c)) / (2 * a) ∨
      t = (-b - Real.sqrt (b ^ 2 - 4 * a * c)) / (2 * a) := by
  set s := Real.sqrt (b ^ 2 - 4 * a * c) with hs_def
  have hs : s ^ 2 = b ^ 2 - 4 * a * c := Real.sq_sqrt hd
  have key : (2 * a * t + b - s) * (2 * a * t + b + s) = 0 := by
    linear_combination 4 * a * ht - hs
  rcases mul_eq_zero.mp key with h | h
  · left
    field_simp
    linarith
  · right
    field_simp
    linarith

/-- With a negative discriminant the quadratic has no real root. -/
theorem quad_no_root (a b c t : ℝ) (hd : b ^ 2 - 4 * a * c < 0) :
    a * t ^ 2 + b * t + c ≠ 0 := by
  intro ht
  have h4 : 4 * a * (a * t ^ 2 + b * t + c) = 0 := by rw [ht]; ring
  nlinarith [sq_nonneg (2 * a * t + b), h4]

/-- Casting a real root equation into ℂ. -/
theorem root_ofReal (a b c x : ℝ) (hx : a * x ^ 2 + b * x + c = 0) :
    (a : ℂ) * (x : ℂ) ^ 2 + (b : ℂ) * (x : ℂ) + (c : ℂ) = 0 := by
  have h := congrArg (fun y : ℝ => (y : ℂ)) hx
  push_cast at h
  simpa using h

/-- Any s with `s² = b² - 4ac` gives a root `(-b + s)/(2a)` of the quadratic,
    over ℂ. -/
theorem quadRootC (a b c s : ℂ) (ha : a ≠ 0)
    (hs : s ^ 2 = b ^ 2 - 4 * a * c) :
    a * ((-b + s) / (2 * a)) ^ 2 + b * ((-b + s) / (2 * a)) + c = 0 := by
  field_simp
  linear_combination 2 * a ^ 2 * hs

/-- The complex-pair entries produced for a negative discriminant are roots
    of the quadratic over ℂ. -/
theorem quadRootComplexPair (a b c q : ℝ) (ha : a ≠ 0)
    (hq : 4 * a ^ 2 * q ^ 2 = 4 * a * c - b ^ 2) :
    (a : ℂ) * (⟨-b / (2 * a), q⟩ : ℂ) ^ 2 +
      (b : ℂ) * (⟨-b / (2 * a), q⟩ : ℂ) + (c : ℂ) = 0 := by
  have haC : (a : ℂ) ≠ 0 := Complex.ofReal_ne_zero.mpr ha
  have hqC : 4 * (a : ℂ) ^ 2 * (q : ℂ) ^ 2 =
      4 * (a : ℂ) * (c : ℂ) - (b : ℂ) ^ 2 := by
    have h := congrArg (fun y : ℝ => (y : ℂ)) hq
    push_cast at h
    simpa using h
  have hzform : (⟨-b / (2 * a), q⟩ : ℂ) =
      (-(b : ℂ) + 2 * (a : ℂ) * (q : ℂ) * Complex.I) / (2 * (a : ℂ)) := by
    rw [Complex.mk_eq_add_mul_I]
    push_cast
    field_simp
    ring
  rw [hzform]
  apply quadRootC _ _ _ _ haC
  calc (2 * (a : ℂ) * (q : ℂ) * Complex.I) ^ 2
      = 4 * (a : ℂ) ^ 2 * (q : ℂ) ^ 2 * Complex.I ^ 2 := by ring
    _ = (4 * (a : ℂ) * (c : ℂ) - (b : ℂ) ^ 2) * (-1) := by
        rw [Complex.I_sq, hqC]
    _ = (b : ℂ) ^ 2 - 4 * (a : ℂ) * (c : ℂ) := by ring

/-- Soundness of the `np.roots` model: every listed value is a (possibly
    complex) root of `a·x² + b·x + c` over ℂ. -/
theorem npRoots2_sound (a b c : ℝ) (z : ℂ) (hz : z ∈ npRoots2 a b c) :
    (a : ℂ) * z ^ 2 + (b : ℂ) * z + (c : ℂ) = 0 := by
  unfold npRoots2 at hz
  split_ifs at hz with h1 h2 h3 h4 h5 h6 h7
  · exact absurd hz (List.not_mem_nil z)
  · rw [List.mem_singleton] at hz
    subst hz
    simp [h1, h3]
  · rw [List.mem_singleton] at hz
    subst hz
    apply root_ofReal
    rw [h1]
    field_simp
    ring
  · simp only [List.mem_cons, List.not_mem_nil, or_false, or_self] at hz
    subst hz
    simp [h4]
  · simp only [List.mem_cons, List.not_mem_nil, or_false] at hz
    rcases hz with hz | hz
    · subst hz
      apply root_ofReal
      rw [h4]
      field_simp
      ring
    · subst hz
      simp [h4]
  · have hd0 : 0 < 4 * a * c - b ^ 2 := by linarith
    have hq : 4 * a ^ 2 *
        (Real.sqrt (4 * a * c - b ^ 2) / (2 * |a|)) ^ 2 =
        4 * a * c - b ^ 2 := by
      have ha2 : a ^ 2 ≠ 0 := pow_ne_zero 2 h1
      rw [div_pow, mul_pow, Real.sq_sqrt (le_of_lt hd0), sq_abs]
      field_simp
      ring
    simp only [List.mem_cons, List.not_mem_nil, or_false] at hz
    rcases hz with hz | hz
    · subst hz
      exact quadRootComplexPair a b c _ h1 hq
    · subst hz
      have hq2 : 4 * a ^ 2 *
          (-(Real.sqrt (4 * a * c - b ^ 2) / (2 * |a|))) ^ 2 =
          4 * a * c - b ^ 2 := by
        rw [neg_sq]
        exact hq
      exact quadRootComplexPair a b c _ h1 hq2
  · have hdge : 0 ≤ b ^ 2 - 4 * a * c := not_lt.mp h6
    have hs : Real.sqrt (b ^ 2 - 4 * a * c) ^ 2 = b ^ 2 - 4 * a * c :=
      Real.sq_sqrt hdge
    have hns : (-(Real.sqrt (b ^ 2 - 4 * a * c))) ^ 2 = b ^ 2 - 4 * a * c := by
      rw [neg_sq]
      exact hs
    have hr1 := quadRoot a b c (Real.sqrt (b ^ 2 - 4 * a * c)) h1 hs
    have hr2 := quadRoot a b c (-(Real.sqrt (b ^ 2 - 4 * a * c))) h1 hns
    have hr2e : (-b + -Real.sqrt (b ^ 2 - 4 * a * c)) / (2 * a) =
        (-b - Real.sqrt (b ^ 2 - 4 * a * c)) / (2 * a) := by ring_nf
    rw [hr2e] at hr2
    simp only [List.mem_cons, List.not_mem_nil, or_false] at hz
    rcases hz with hz | hz <;> subst hz <;> apply root_ofReal
    · rcases max_choice ((-b + Real.sqrt (b ^ 2 - 4 * a * c)) / (2 * a))
        ((-b - Real.sqrt (b ^ 2 - 4 * a * c)) / (2 * a)) with hm | hm <;>
        rw [hm] <;> assumption
    · rcases min_choice ((-b + Real.sqrt (b ^ 2 - 4 * a * c)) / (2 * a))
        ((-b - Real.sqrt (b ^ 2 - 4 * a * c)) / (2 * a)) with hm | hm <;>
        rw [hm] <;> assumption
  · have hdge : 0 ≤ b ^ 2 - 4 * a * c := not_lt.mp h6
    have hs : Real.sqrt (b ^ 2 - 4 * a * c) ^ 2 = b ^ 2 - 4 * a * c :=
      Real.sq_sqrt hdge
    have hns : (-(Real.sqrt (b ^ 2 - 4 * a * c))) ^ 2 = b ^ 2 - 4 * a * c := by
      rw [neg_sq]
      exact hs
    have hr1 := quadRoot a b c (Real.sqrt (b ^ 2 - 4 * a * c)) h1 hs
    have hr2 := quadRoot a b c (-(Real.sqrt (b ^ 2 - 4 * a * c))) h1 hns
    have hr2e : (-b + -Real.sqrt (b ^ 2 - 4 * a * c)) / (2 * a) =
        (-b - Real.sqrt (b ^ 2 - 4 * a * c)) / (2 * a) := by ring_nf
    rw [hr2e] at hr2
    simp only [List.mem_cons, List.not_mem_nil, or_false] at hz
    rcases hz with hz | hz <;> subst hz <;> apply root_ofReal
    · rcases min_choice ((-b + Real.sqrt (b ^ 2 - 4 * a * c)) / (2 * a))
        ((-b - Real.sqrt (b ^ 2 - 4 * a * c)) / (2 * a)) with hm | hm <;>
        rw [hm] <;> assumption
    · rcases max_choice ((-b + Real.sqrt (b ^ 2 - 4 * a * c)) / (2 * a))
        ((-b - Real.sqrt (b ^ 2 - 4 * a * c)) / (2 * a)) with hm | hm <;>
        rw [hm] <;> assumption

/-- numpy's lexicographic positivity at a real entry is ordinary positivity. -/
theorem cplxPos_ofReal (t : ℝ) : cplxPos (t : ℂ) ↔ 0 < t := by
  simp [cplxPos]

/-- Completeness of the `np.roots` model for REAL roots: unless the
    polynomial is identically zero, every real root is listed (as a real
    entry). -/
theorem npRoots2_complete (a b c t : ℝ)
    (hnz : ¬ (a = 0 ∧ b = 0 ∧ c = 0))
    (ht : a * t ^ 2 + b * t + c = 0) :
    ((t : ℝ) : ℂ) ∈ npRoots2 a b c := by
  unfold npRoots2
  split_ifs with h1 h2 h3 h4 h5 h6 h7
  · exfalso
    apply hnz
    refine ⟨h1, h2, ?_⟩
    rw [h1, h2] at ht
    simpa using ht
  · rw [h1, h3] at ht
    simp at ht
    rcases ht with ht | ht
    · exact absurd ht h2
    · simp [ht]
  · rw [h1] at ht
    simp at ht
    have hteq : t = -c / b := by
      field_simp
      linarith
    simp [hteq]
  · rw [h4] at ht
    simp [h5] at ht
    rcases ht with ht | ht
    · exact absurd ht h1
    · simp [ht]
  · rw [h4] at ht
    have key : t * (a * t + b) = 0 := by linear_combination ht
    rcases mul_eq_zero.mp key with h | h
    · simp [h]
    · have hteq : t = -b / a := by
        field_simp
        linarith
      simp [hteq]
  · exact absurd ht (quad_no_root a b c t h6)
  · have hmem := quadRoots_complete a b c t h1 (not_lt.mp h6) ht
    simp only [List.mem_cons, List.not_mem_nil, or_false, Complex.ofReal_inj]
    rcases le_total ((-b + Real.sqrt (b ^ 2 - 4 * a * c)) / (2 * a))
      ((-b - Real.sqrt (b ^ 2 - 4 * a * c)) / (2 * a)) with hle | hle
    · rw [max_eq_right hle, min_eq_left hle]
      tauto
    · rw [max_eq_left hle, min_eq_right hle]
      tauto
  · have hmem := quadRoots_complete a b c t h1 (not_lt.mp h6) ht
    simp only [List.mem_cons, List.not_mem_nil, or_false, Complex.ofReal_inj]
    rcases le_total ((-b + Real.sqrt (b ^ 2 - 4 * a * c)) / (2 * a))
      ((-b - Real.sqrt (b ^ 2 - 4 * a * c)) / (2 * a)) with hle | hle
    · rw [min_eq_left hle, max_eq_right hle]
      tauto
    · rw [min_eq_right hle, max_eq_left hle]
      tauto

/-- When the quadratic has two distinct strictly positive real roots, the
    `np.roots` model lists the LARGER one first (LAPACK order: the root sum
    is positive, so the first companion-matrix eigenvalue is the larger
    root). -/
theorem npRoots2_two_pos (a b c t1 t2 : ℝ) (ha : a ≠ 0) (hpos : 0 < t1)
    (h12 : t1 < t2) (ht1 : a * t1 ^ 2 + b * t1 + c = 0)
    (ht2 : a * t2 ^ 2 + b * t2 + c = 0) :
    npRoots2 a b c = [((t2 : ℝ) : ℂ), ((t1 : ℝ) : ℂ)] := by
  have hne : t1 - t2 ≠ 0 := by intro h; linarith
  have hb : b = -(a * (t1 + t2)) := by
    have key : (t1 - t2) * (a * (t1 + t2) + b) = 0 := by
      linear_combination ht1 - ht2
    rcases mul_eq_zero.mp key with h | h
    · exact absurd h hne
    · linarith
  have hc : c = a * (t1 * t2) := by
    linear_combination ht1 - t1 * hb
  have hd : b ^ 2 - 4 * a * c = (a * (t2 - t1)) ^ 2 := by
    rw [hb, hc]
    ring
  have hc0 : ¬ c = 0 := by
    rw [hc]
    exact mul_ne_zero ha (ne_of_gt (mul_pos hpos (lt_trans hpos h12)))
  have hdneg : ¬ (b ^ 2 - 4 * a * c < 0) := by
    rw [hd]
    exact not_lt.mpr (sq_nonneg _)
  have hp : 0 ≤ -b / (2 * a) := by
    have hrw : -b / (2 * a) = (t1 + t2) / 2 := by
      rw [hb]
      field_simp
      ring
    rw [hrw]
    linarith
  have hsq : Real.sqrt (b ^ 2 - 4 * a * c) = |a| * (t2 - t1) := by
    rw [hd, Real.sqrt_sq_eq_abs, abs_mul,
      abs_of_pos (by linarith : (0 : ℝ) < t2 - t1)]
  simp only [npRoots2, if_neg ha, if_neg hc0, if_neg hdneg, if_pos hp]
  rcases lt_or_gt_of_ne ha with hneg | hposa
  · have habs : |a| = -a := abs_of_neg hneg
    have hr1 : (-b + Real.sqrt (b ^ 2 - 4 * a * c)) / (2 * a) = t1 := by
      rw [hsq, habs, hb]
      field_simp
      ring
    have hr2 : (-b - Real.sqrt (b ^ 2 - 4 * a * c)) / (2 * a) = t2 := by
      rw [hsq, habs, hb]
      field_simp
      ring
    rw [hr1, hr2, max_eq_right (le_of_lt h12), min_eq_left (le_of_lt h12)]
  · have habs : |a| = a := abs_of_pos hposa
    have hr1 : (-b + Real.sqrt (b ^ 2 - 4 * a * c)) / (2 * a) = t2 := by
      rw [hsq, habs, hb]
      field_simp
      ring
    have hr2 : (-b - Real.sqrt (b ^ 2 - 4 * a * c)) / (2 * a) = t1 := by
      rw [hsq, habs, hb]
      field_simp
      ring
    rw [hr1, hr2, max_eq_left (le_of_lt h12), min_eq_right (le_of_lt h12)]

/-- With a negative discriminant, `np.roots` yields the complex-conjugate
    pair, positive imaginary part first (LAPACK dlanv2: RT1I > 0). -/
theorem npRoots2_neg_disc (a b c : ℝ) (hd : b ^ 2 - 4 * a * c < 0) :
    npRoots2 a b c =
      [⟨-b / (2 * a), Real.sqrt (4 * a * c - b ^ 2) / (2 * |a|)⟩,
       ⟨-b / (2 * a), -(Real.sqrt (4 * a * c - b ^ 2) / (2 * |a|))⟩] := by
  have ha : ¬ a = 0 := by
    intro h
    rw [h] at hd
    nlinarith [sq_nonneg b]
  have hc : ¬ c = 0 := by
    intro h
    rw [h] at hd
    nlinarith [sq_nonneg b]
  simp only [npRoots2, if_neg ha, if_neg hc, if_pos hd]

end V2V

namespace V2V

/-- The gap-closure polynomial of spec.md §4.6 and claim C3:
    `gap + (peer.v − V.v)·t + 0.5·(peer.a − V.a)·t²` with
    `gap = (peer.x − peer.length/2) − (V.x + V.length/2)`.  This follows the
    claim's words; `compute_ttc` is checked against it. -/
noncomputable def gapPoly (v : Vehicle) (fs : VehicleState) (t : ℝ) : ℝ :=
  ((fs.position_x - fs.length / 2) - (v.position_x + v.length / 2)) +
    (fs.velocity - v.velocity) * t +
    (fs.acceleration - v.acceleration) / 2 * t ^ 2

/-- `gapPoly` written with the coefficients `compute_ttc` feeds `np.roots`. -/
theorem gapPoly_coeff (v : Vehicle) (fs : VehicleState) (t : ℝ) :
    gapPoly v fs t =
      (fs.acceleration - v.acceleration) / 2 * t ^ 2 +
        (fs.velocity - v.velocity) * t +
        ((fs.position_x - fs.length / 2) - (v.position_x + v.length / 2)) := by
  unfold gapPoly
  ring

/-- The gap-closure polynomial evaluated over ℂ (needed because
    `compute_ttc` can return a complex value). -/
noncomputable def gapPolyC (v : Vehicle) (fs : VehicleState) (z : ℂ) : ℂ :=
  (((fs.position_x - fs.length / 2) - (v.position_x + v.length / 2) : ℝ) : ℂ) +
    ((fs.velocity - v.velocity : ℝ) : ℂ) * z +
    ((fs.acceleration - v.acceleration : ℝ) : ℂ) / 2 * z ^ 2

/-- The head of a list is a member. -/
theorem head?_mem {α : Type} {l : List α} {a : α} (h : l.head? = some a) :
    a ∈ l := by
  cases l with
  | nil => simp at h
  | cons x xs =>
      simp at h
      subst h
      exact List.mem_cons_self x xs

/-- A returned TTC is a lexicographically positive root of the gap
    polynomial over ℂ. -/
theorem ttcSomePosRoot (v : Vehicle) (fs : VehicleState) (z : ℂ)
    (h : Vehicle.computeTTC v fs = some z) :
    cplxPos z ∧ gapPolyC v fs z = 0 := by
  simp only [Vehicle.computeTTC] at h
  have hmem := head?_mem h
  have hmf := List.mem_filter.mp hmem
  have hpos : cplxPos z := of_decide_eq_true hmf.2
  have hroot := npRoots2_sound _ _ _ z hmf.1
  refine ⟨hpos, ?_⟩
  unfold gapPolyC
  push_cast at hroot ⊢
  linear_combination hroot

/-- When no TTC is returned and the gap polynomial is not identically zero,
    it has no strictly positive real root. -/
theorem ttcNoneNoRoot (v : Vehicle) (fs : VehicleState)
    (hnz : ¬ (fs.acceleration - v.acceleration = 0 ∧
      fs.velocity - v.velocity = 0 ∧
      (fs.position_x - fs.length / 2) - (v.position_x + v.length / 2) = 0))
    (h : Vehicle.computeTTC v fs = none) :
    ∀ t : ℝ, 0 < t → gapPoly v fs t ≠ 0 := by
  intro t ht hroot
  simp only [Vehicle.computeTTC] at h
  rw [List.head?_eq_none_iff] at h
  have hq : (fs.acceleration - v.acceleration) / 2 * t ^ 2 +
      (fs.velocity - v.velocity) * t +
      ((fs.position_x - fs.length / 2) - (v.position_x + v.length / 2)) = 0 := by
    rw [gapPoly_coeff] at hroot
    linarith
  have hnz2 : ¬ ((fs.acceleration - v.acceleration) / 2 = 0 ∧
      fs.velocity - v.velocity = 0 ∧
      (fs.position_x - fs.length / 2) - (v.position_x + v.length / 2) = 0) := by
    rintro ⟨hA, hB, hC⟩
    exact hnz ⟨by linarith, hB, hC⟩
  have hmem := npRoots2_complete _ _ _ t hnz2 hq
  have hmm : ((t : ℝ) : ℂ) ∈ (npRoots2 ((fs.acceleration - v.acceleration) / 2)
      (fs.velocity - v.velocity)
      ((fs.position_x - fs.length / 2) - (v.position_x + v.length / 2))).filter
      (fun r => decide (cplxPos r)) :=
    List.mem_filter.mpr ⟨hmem, decide_eq_true ((cplxPos_ofReal t).mpr ht)⟩
  rw [h] at hmm
  simp at hmm

/-- With distinct accelerations and two distinct strictly positive real
    roots, `compute_ttc` returns the LARGER root (`time[0]` in numpy's
    order). -/
theorem ttcTwoPos (v : Vehicle) (fs : VehicleState) (t1 t2 : ℝ)
    (hane : fs.acceleration ≠ v.acceleration) (h1 : 0 < t1) (h12 : t1 < t2)
    (hr1 : gapPoly v fs t1 = 0) (hr2 : gapPoly v fs t2 = 0) :
    Vehicle.computeTTC v fs = some ((t2 : ℝ) : ℂ) := by
  have hA : (fs.acceleration - v.acceleration) / 2 ≠ 0 := by
    intro h
    apply hane
    have : fs.acceleration - v.acceleration = 0 := by linarith
    linarith
  have hq1 : (fs.acceleration - v.acceleration) / 2 * t1 ^ 2 +
      (fs.velocity - v.velocity) * t1 +
      ((fs.position_x - fs.length / 2) - (v.position_x + v.length / 2)) = 0 := by
    rw [gapPoly_coeff] at hr1
    linarith
  have hq2 : (fs.acceleration - v.acceleration) / 2 * t2 ^ 2 +
      (fs.velocity - v.velocity) * t2 +
      ((fs.position_x - fs.length / 2) - (v.position_x + v.length / 2)) = 0 := by
    rw [gapPoly_coeff] at hr2
    linarith
  have hlist := npRoots2_two_pos _ _ _ t1 t2 hA h1 h12 hq1 hq2
  have h2 : 0 < t2 := lt_trans h1 h12
  simp only [Vehicle.computeTTC]
  rw [hlist]
  simp [List.filter_cons, cplxPos_ofReal, h1, h2]

/-- With equal accelerations (linear reduction) a returned TTC is real and
    is the smallest strictly positive root. -/
theorem ttcLinearMin (v : Vehicle) (fs : VehicleState) (t : ℝ)
    (haeq : fs.acceleration = v.acceleration)
    (hsome : Vehicle.computeTTC v fs = some ((t : ℝ) : ℂ)) :
    ∀ s : ℝ, 0 < s → gapPoly v fs s = 0 → t ≤ s := by
  intro s hs hroot
  have hA : (fs.acceleration - v.acceleration) / 2 = 0 := by
    rw [haeq]
    ring
  simp only [Vehicle.computeTTC] at hsome
  rw [hA] at hsome
  by_cases hB : fs.velocity - v.velocity = 0
  · rw [hB] at hsome
    simp [npRoots2] at hsome
  · have hroots : npRoots2 0 (fs.velocity - v.velocity)
        ((fs.position_x - fs.length / 2) - (v.position_x + v.length / 2)) =
        if (fs.position_x - fs.length / 2) - (v.position_x + v.length / 2) = 0
        then [0]
        else [((-((fs.position_x - fs.length / 2) - (v.position_x + v.length / 2)) / (fs.velocity - v.velocity) : ℝ) : ℂ)] := by
      simp [npRoots2, hB]
    rw [hroots] at hsome
    by_cases hC : (fs.position_x - fs.length / 2) - (v.position_x + v.length / 2) = 0
    · rw [if_pos hC] at hsome
      have hmf := List.mem_filter.mp (head?_mem hsome)
      have ht0 : t = 0 := by
        have := hmf.1
        simpa [Complex.ofReal_eq_zero] using this
      have hpt : 0 < t :=
        (cplxPos_ofReal t).mp (of_decide_eq_true hmf.2)
      rw [ht0] at hpt
      exact absurd hpt (lt_irrefl 0)
    · rw [if_neg hC] at hsome
      have hsroot : (fs.velocity - v.velocity) * s +
          ((fs.position_x - fs.length / 2) - (v.position_x + v.length / 2)) = 0 := by
        rw [gapPoly_coeff, hA] at hroot
        linarith
      have hseq : s = -((fs.position_x - fs.length / 2) - (v.position_x + v.length / 2)) / (fs.velocity - v.velocity) := by
        field_simp
        linarith
      have hmf := List.mem_filter.mp (head?_mem hsome)
      have ht : t = -((fs.position_x - fs.length / 2) - (v.position_x + v.length / 2)) / (fs.velocity - v.velocity) := by
        have hm1 := hmf.1
        rw [List.mem_singleton] at hm1
        exact_mod_cast hm1
      rw [ht, hseq]

/-- With a negative discriminant and a lexicographically positive first
    complex root (positive real part), `compute_ttc` returns that COMPLEX
    value — not nothing. -/
theorem ttcNegDisc (v : Vehicle) (fs : VehicleState)
    (hd : (fs.velocity - v.velocity) ^ 2 -
      4 * ((fs.acceleration - v.acceleration) / 2) *
        ((fs.position_x - fs.length / 2) - (v.position_x + v.length / 2)) < 0)
    (hp : 0 < -(fs.velocity - v.velocity) /
      (2 * ((fs.acceleration - v.acceleration) / 2))) :
    Vehicle.computeTTC v fs =
      some ⟨-(fs.velocity - v.velocity) /
          (2 * ((fs.acceleration - v.acceleration) / 2)),
        Real.sqrt (4 * ((fs.acceleration - v.acceleration) / 2) *
            ((fs.position_x - fs.length / 2) - (v.position_x + v.length / 2)) -
          (fs.velocity - v.velocity) ^ 2) /
          (2 * |(fs.acceleration - v.acceleration) / 2|)⟩ := by
  have hfirst : cplxPos ⟨-(fs.velocity - v.velocity) /
      (2 * ((fs.acceleration - v.acceleration) / 2)),
      Real.sqrt (4 * ((fs.acceleration - v.acceleration) / 2) *
          ((fs.position_x - fs.length / 2) - (v.position_x + v.length / 2)) -
        (fs.velocity - v.velocity) ^ 2) /
        (2 * |(fs.acceleration - v.acceleration) / 2|)⟩ := Or.inl hp
  have hft := decide_eq_true hfirst
  simp only [Vehicle.computeTTC]
  rw [npRoots2_neg_disc _ _ _ hd]
  simp only [List.filter_cons, hft, if_true, List.head?_cons]

/-- C3 (amended): `compute_ttc` returns `time[0]`, the first entry of the
    `np.roots` output passing numpy's lexicographic positivity filter
    `roots > 0`.  Consequences proved here: every returned value is a
    lexicographically positive root of the gap polynomial over ℂ; nothing
    is returned ONLY IF no strictly positive real root exists (the
    polynomial not being identically zero); for a quadratic with two
    distinct strictly positive real roots the LARGER root is returned, not
    the smallest; in the linear reduction (equal accelerations) the
    returned root is the smallest strictly positive one; and for a negative
    discriminant whose conjugate pair has positive real part, a COMPLEX
    value is returned even though no real root exists at all. -/
theorem c3_ttc_root_selection :
    (∀ (v : Vehicle) (fs : VehicleState) (z : ℂ),
      Vehicle.computeTTC v fs = some z → cplxPos z ∧ gapPolyC v fs z = 0) ∧
    (∀ (v : Vehicle) (fs : VehicleState),
      ¬ (fs.acceleration - v.acceleration = 0 ∧
        fs.velocity - v.velocity = 0 ∧
        (fs.position_x - fs.length / 2) - (v.position_x + v.length / 2) = 0) →
      Vehicle.computeTTC v fs = none →
      ∀ t : ℝ, 0 < t → gapPoly v fs t ≠ 0) ∧
    (∀ (v : Vehicle) (fs : VehicleState) (t1 t2 : ℝ),
      fs.acceleration ≠ v.acceleration → 0 < t1 → t1 < t2 →
      gapPoly v fs t1 = 0 → gapPoly v fs t2 = 0 →
      Vehicle.computeTTC v fs = some ((t2 : ℝ) : ℂ)) ∧
    (∀ (v : Vehicle) (fs : VehicleState) (t : ℝ),
      fs.acceleration = v.acceleration →
      Vehicle.computeTTC v fs = some ((t : ℝ) : ℂ) →
      ∀ s : ℝ, 0 < s → gapPoly v fs s = 0 → t ≤ s) ∧
    (∀ (v : Vehicle) (fs : VehicleState),
      (fs.velocity - v.velocity) ^ 2 -
        4 * ((fs.acceleration - v.acceleration) / 2) *
          ((fs.position_x - fs.length / 2) - (v.position_x + v.length / 2)) < 0 →
      0 < -(fs.velocity - v.velocity) /
        (2 * ((fs.acceleration - v.acceleration) / 2)) →
      ∃ z : ℂ, Vehicle.computeTTC v fs = some z ∧ z.im ≠ 0 ∧
        ∀ t : ℝ, gapPoly v fs t ≠ 0) := by
  refine ⟨ttcSomePosRoot, ttcNoneNoRoot, ttcTwoPos, ttcLinearMin, ?_⟩
  intro v fs hd hp
  have hA : (fs.acceleration - v.acceleration) / 2 ≠ 0 := by
    intro h
    rw [h] at hd
    nlinarith [sq_nonneg (fs.velocity - v.velocity)]
  refine ⟨_, ttcNegDisc v fs hd hp, ?_, ?_⟩
  · have hgt : 0 < 4 * ((fs.acceleration - v.acceleration) / 2) *
        ((fs.position_x - fs.length / 2) - (v.position_x + v.length / 2)) -
        (fs.velocity - v.velocity) ^ 2 := by linarith
    have him : 0 < Real.sqrt (4 * ((fs.acceleration - v.acceleration) / 2) *
        ((fs.position_x - fs.length / 2) - (v.position_x + v.length / 2)) -
        (fs.velocity - v.velocity) ^ 2) /
        (2 * |(fs.acceleration - v.acceleration) / 2|) :=
      div_pos (Real.sqrt_pos.mpr hgt)
        (by positivity)
    exact ne_of_gt him
  · intro t hg
    apply quad_no_root ((fs.acceleration - v.acceleration) / 2)
      (fs.velocity - v.velocity)
      ((fs.position_x - fs.length / 2) - (v.position_x + v.length / 2)) t hd
    rw [gapPoly_coeff] at hg
    linarith

/-- The rear vehicle of the C3 scenario: x = 0, v = 5, a = 0, length 4. -/
noncomputable def c3vehicle : Vehicle :=
  ⟨"V001", 0, 0, 5, 0, 0, mkProtocol, [], 4, 2, 5, false, 0⟩

/-- A front peer: x = 6, v = 2, a = 2, length 4 — gap 2, so the quadratic
    is t² − 3t + 2 with real roots 1 and 2. -/
noncomputable def c3front : VehicleState := ⟨0, 6, 0, 2, 2, 0, 4, 2⟩

/-- A second front peer: x = 6, v = 3, a = 2, length 4 — gap 2, so the
    quadratic is t² − 2t + 2 with discriminant −4 and complex roots 1 ± i. -/
noncomputable def c3front2 : VehicleState := ⟨0, 6, 0, 3, 2, 0, 4, 2⟩

/-- C3 counterexample, refuting the claim at two concrete configurations:
    (i) against `c3front` the gap quadratic has the strictly positive real
    roots 1 and 2 and `compute_ttc` returns 2 — NOT the smallest strictly
    positive root; (ii) against `c3front2` the gap quadratic t² − 2t + 2
    has NO real root at all, yet `compute_ttc` returns the COMPLEX value
    1 + i (numpy's lexicographic `roots > 0` passes a complex root with
    positive real part) instead of returning nothing. -/
theorem c3_counterexample :
    (Vehicle.computeTTC c3vehicle c3front = some ((2 : ℝ) : ℂ) ∧
      gapPoly c3vehicle c3front 1 = 0 ∧ (0 : ℝ) < 1 ∧ (1 : ℝ) < 2) ∧
    (Vehicle.computeTTC c3vehicle c3front2 = some ⟨1, 1⟩ ∧
      ∀ t : ℝ, 0 < t → gapPoly c3vehicle c3front2 t ≠ 0) := by
  constructor
  · refine ⟨?_, ?_, one_pos, one_lt_two⟩
    · exact ttcTwoPos c3vehicle c3front 1 2 (by norm_num [c3front, c3vehicle])
        one_pos one_lt_two (by norm_num [gapPoly, c3front, c3vehicle])
        (by norm_num [gapPoly, c3front, c3vehicle])
    · norm_num [gapPoly, c3front, c3vehicle]
  · constructor
    · have h := ttcNegDisc c3vehicle c3front2
        (by norm_num [c3vehicle, c3front2])
        (by norm_num [c3vehicle, c3front2])
      rw [h]
      have hs4 : Real.sqrt 4 = 2 := by
        rw [show (4 : ℝ) = 2 ^ 2 by norm_num]
        exact Real.sqrt_sq (by norm_num)
      norm_num [c3vehicle, c3front2, hs4]
    · intro t ht hg
      apply quad_no_root 1 (-2) 2 t (by norm_num)
      rw [gapPoly_coeff] at hg
      norm_num [c3vehicle, c3front2] at hg
      linarith

theorem c3_ttc_root_selection_witness :
    c3front.acceleration ≠ c3vehicle.acceleration ∧ (0 : ℝ) < 1 ∧
      (1 : ℝ) < 2 ∧ gapPoly c3vehicle c3front 1 = 0 ∧
      gapPoly c3vehicle c3front 2 = 0 ∧
      Vehicle.computeTTC c3vehicle c3front = some ((2 : ℝ) : ℂ) :=
  ⟨by norm_num [c3front, c3vehicle], one_pos, one_lt_two,
   by norm_num [gapPoly, c3front, c3vehicle],
   by norm_num [gapPoly, c3front, c3vehicle],
   c3_ttc_root_selection.2.2.1 c3vehicle c3front 1 2
     (by norm_num [c3front, c3vehicle]) one_pos one_lt_two
     (by norm_num [gapPoly, c3front, c3vehicle])
     (by norm_num [gapPoly, c3front, c3vehicle])⟩

end V2V
